import Mathlib

/-!
Verification development for the solitaire rules engine
(`src/js/card.js`, `src/unnamed/part_002` second `GameState` revision,
`src/unnamed/part_003` `Deck`).

The embedding follows the JavaScript source line by line.  JavaScript
arrays become `List`, JS numbers used as counters/indices become `Int`
(so that negative and out-of-range arguments behave as in JS),
`undefined` becomes `none`, and a JS runtime fault (a thrown
`TypeError`, e.g. reading `.length` of `undefined`) is modelled by an
`Option`-valued operation returning `none`.  All faults in the modelled
code occur during validation, before any mutation, so a faulting call
leaves the state unchanged in JS as well.
-/

namespace Solitaire

/-- JS array read `xs[i]`: `undefined` (here `none`) whenever `i` is
negative or at least the length. -/
def jsIndex {α : Type} (xs : List α) (i : Int) : Option α :=
  if 0 ≤ i then xs.get? i.toNat else none

/-- Replacement of the element at a JS index; used to write back the
in-place mutation of the array object that lives at a given pile
location.  Only ever applied at indices where a read just succeeded. -/
def jsSet {α : Type} (xs : List α) (i : Int) (v : α) : List α :=
  if 0 ≤ i then xs.set i.toNat v else xs

/-- Normalisation of a (possibly negative) start argument of JS
`Array.prototype.slice`/`splice`: a negative start counts from the end,
clamped to `[0, length]`. -/
def jsNormStart (len : Nat) (i : Int) : Nat :=
  if i < 0 then len - min (-i).toNat len else min i.toNat len

/-- `xs.slice(start)` in JS: the suffix from the normalised start. -/
def jsSliceFrom {α : Type} (xs : List α) (start : Int) : List α :=
  xs.drop (jsNormStart xs.length start)

/-- The array left behind by `xs.splice(start, deleteCount)`: the
delete count is clamped to `[0, length - start]`. -/
def jsSpliceKeep {α : Type} (xs : List α) (start delCount : Int) : List α :=
  let s := jsNormStart xs.length start
  let d := min (max delCount 0).toNat (xs.length - s)
  xs.take s ++ xs.drop (s + d)

/-- `Array.prototype.indexOf` on a list of strings: the index of the
first occurrence, `-1` if absent. -/
def listIndexOf : List String → String → Int
  | [], _ => -1
  | y :: ys, x =>
    if y = x then 0
    else
      let r := listIndexOf ys x
      if r = -1 then -1 else r + 1

/-- A playing card (`card.js`): `rank` 1..13, `suit` one of the four
suit strings, `faceUp` the mutable orientation.  The JS `id` field is
derived from `suit` and `rank` and is therefore omitted;
`Card.fromJSON` restores exactly these three fields. -/
structure Card where
  rank : Int
  suit : String
  faceUp : Bool
deriving DecidableEq, Repr, Inhabited

/-- `Card.isRed` (card.js line 47). -/
def Card.isRed (c : Card) : Bool :=
  c.suit == "hearts" || c.suit == "diamonds"

/-- `Card.canPlaceOnTableau(otherCard)` (card.js lines 62-71).  The
method takes a single parameter; the `'spider'` / `'klondike'` variant
argument passed by `GameState.isValidMove` does not exist in the
signature and is silently ignored by JavaScript, so the Klondike rule
(King on an empty column, else alternating colour one rank down) is the
only rule ever applied. -/
def Card.canPlaceOnTableau (c : Card) (otherCard : Option Card) : Bool :=
  match otherCard with
  | none => c.rank == 13
  | some o => (c.isRed != o.isRed) && (c.rank == o.rank - 1)

/-- `Card.canPlaceOnFoundation(foundationCards)` (card.js lines 77-87):
an Ace starts an empty pile, otherwise same suit and one rank above the
top card. -/
def Card.canPlaceOnFoundation (c : Card) (foundationCards : List Card) : Bool :=
  match foundationCards.getLast? with
  | none => c.rank == 1
  | some topCard => (c.suit == topCard.suit) && (c.rank == topCard.rank + 1)

/-- The fixed suit order `['hearts', 'diamonds', 'clubs', 'spades']`
used by `getFoundationIndex` and the foundation-index check of
`isValidMove`. -/
def suitOrder : List String := ["hearts", "diamonds", "clubs", "spades"]

/-- An undo snapshot (`GameState.createSnapshot`).  The klondike branch
stores `foundation`/`waste`, the spider branch stores
`completedSequences`/`spiderSuits`; absent properties are `none`.
Cards are stored via `Card.toJSON`/`Card.fromJSON`, which round-trip
the `(rank, suit, faceUp)` triple, so snapshot piles are card lists. -/
structure Snapshot where
  tableau : List (List Card)
  stock : List Card
  score : Int
  stockCycles : Int
  emptyColumnsCreated : Int
  gameType : Option String
  foundation : Option (List (List Card))
  waste : Option (List Card)
  completedSequences : Option (List (List Card))
  spiderSuits : Option Int
deriving DecidableEq, Repr, Inhabited

/-- The `GameState` aggregate (second revision in `part_002`).  The
UI-selection fields `selectedCards`/`selectedSource` are never read or
written by the modelled operations and are omitted.  Each
`moveHistory` entry of the source carries move metadata and a
timestamp that no engine operation ever reads back (`undoLastMove`
reads only the `gameState` snapshot), so an entry is modelled by its
snapshot.  `gameType`, `completedSequences` and `spiderSuits` are never
initialised by `reset()` (the constructor ignores its argument), hence
`Option`-typed with `none` for `undefined`. -/
structure GameState where
  tableau : List (List Card)
  foundation : List (List Card)
  stock : List Card
  waste : List Card
  difficulty : String
  drawCount : Int
  moves : Int
  score : Int
  startTime : Option Int
  endTime : Option Int
  gameWon : Bool
  gameLost : Bool
  stockCycles : Int
  emptyColumnsCreated : Int
  moveHistory : List Snapshot
  autoCompleteAvailable : Bool
  gameType : Option String
  completedSequences : Option (List (List Card))
  spiderSuits : Option Int
deriving DecidableEq, Repr, Inhabited

namespace GameState

/-- `reset()` (part_002 lines 499-533): the state of a freshly
constructed `GameState`. -/
def reset : GameState where
  tableau := [[], [], [], [], [], [], []]
  foundation := [[], [], [], []]
  stock := []
  waste := []
  difficulty := "medium"
  drawCount := 1
  moves := 0
  score := 0
  startTime := none
  endTime := none
  gameWon := false
  gameLost := false
  stockCycles := 0
  emptyColumnsCreated := 0
  moveHistory := []
  autoCompleteAvailable := false
  gameType := none
  completedSequences := none
  spiderSuits := none

/-- `getCardArray(area, index)` (part_002 lines 770-783); an unknown
area tag gives `null`, an out-of-range tableau/foundation index gives
`undefined` — both `none` here. -/
def getCardArray (g : GameState) (area : String) (index : Int) : Option (List Card) :=
  if area == "tableau" then jsIndex g.tableau index
  else if area == "foundation" then jsIndex g.foundation index
  else if area == "waste" then some g.waste
  else if area == "stock" then some g.stock
  else none

/-- Write-back of an in-place mutation of the array returned by
`getCardArray`; only applied where the corresponding read succeeded. -/
def setCardArray (g : GameState) (area : String) (index : Int) (pile : List Card) : GameState :=
  if area == "tableau" then { g with tableau := jsSet g.tableau index pile }
  else if area == "foundation" then { g with foundation := jsSet g.foundation index pile }
  else if area == "waste" then { g with waste := pile }
  else if area == "stock" then { g with stock := pile }
  else g

end GameState

/-- The loop body of `isValidSpiderSequence` (part_002 lines 729-745):
each later card must carry the first card's suit and descend by one
rank from its predecessor. -/
def spiderSeqFrom (firstSuit : String) : List Card → Bool
  | a :: b :: rest =>
    (b.suit == firstSuit) && (b.rank == a.rank - 1) && spiderSeqFrom firstSuit (b :: rest)
  | _ => true

/-- `isValidSpiderSequence(cards)` (part_002 lines 729-745). -/
def isValidSpiderSequence (cards : List Card) : Bool :=
  match cards with
  | [] => true
  | firstCard :: _ => spiderSeqFrom firstCard.suit cards

/-- `isValidKlondikeSequence(cards)` (part_002 lines 750-765):
adjacent cards alternate colour and descend by one rank. -/
def isValidKlondikeSequence : List Card → Bool
  | a :: b :: rest =>
    (b.isRed != a.isRed) && (b.rank == a.rank - 1) && isValidKlondikeSequence (b :: rest)
  | _ => true

namespace GameState

/-- `isValidMove(cards, fromArea, toArea, targetCards, toIndex)`
(part_002 lines 673-724).  `targetCards` may be `undefined` (an
unresolved target pile); the foundation branch then faults inside
`canPlaceOnFoundation` and the tableau branch faults on
`targetCards.length`, modelled by `none`.  `toIndex` is always a
number at the call site, so the `toIndex !== null` guard always
holds; `expectedSuits[toIndex]` is `undefined` out of range and then
never equals the moving card's suit. -/
def isValidMove (g : GameState) (cards : List Card) (fromArea toArea : String)
    (targetCards : Option (List Card)) (toIndex : Int) : Option Bool :=
  match cards with
  | [] => some false
  | movingCard :: _ =>
    if toArea == "foundation" then
      if cards.length > 1 then some false
      else
        match targetCards with
        | none => none
        | some t =>
          if !(movingCard.canPlaceOnFoundation t) then some false
          else if some movingCard.suit != jsIndex suitOrder toIndex then some false
          else some true
    else if toArea == "tableau" then
      match targetCards with
      | none => none
      | some t =>
        let targetCard := t.getLast?
        if g.gameType == some "spider" then
          if cards.length == 1 then some (movingCard.canPlaceOnTableau targetCard)
          else some (isValidSpiderSequence cards && movingCard.canPlaceOnTableau targetCard)
        else
          if cards.length == 1 then some (movingCard.canPlaceOnTableau targetCard)
          else some (isValidKlondikeSequence cards && movingCard.canPlaceOnTableau targetCard)
    else some false

/-- `getFoundationIndex(suit)` (part_002 lines 809-812). -/
def getFoundationIndex (suit : String) : Int :=
  listIndexOf suitOrder suit

/-- `updateScore(fromArea, toArea, cardCount)` (part_002 lines
788-804).  The completion bonus looks up
`this.foundation[this.getFoundationIndex(fromArea)]`: `fromArea` is an
area tag, never a suit name, so the index is `-1`, the pile is
`undefined` (falsy) and the `+100` bonus can never be granted. -/
def updateScore (g : GameState) (fromArea toArea : String) (cardCount : Int) : GameState :=
  let s1 : Int :=
    if toArea == "foundation" then g.score + 10 * cardCount
    else if fromArea == "waste" && toArea == "tableau" then g.score + 5 * cardCount
    else if fromArea == "foundation" && toArea == "tableau" then g.score - 15 * cardCount
    else g.score
  let s2 : Int :=
    if toArea == "foundation" then
      match jsIndex g.foundation (getFoundationIndex fromArea) with
      | some foundationPile => if foundationPile.length == 13 then s1 + 100 else s1
      | none => s1
    else s1
  { g with score := s2 }

/-- `calculateTimeBonus()` (part_002 lines 841-853) with the two
timestamps passed explicitly.  A missing or zero timestamp is falsy
and yields no bonus; `Math.floor` of the exact rational
`(gameTimeMinutes - 2) * 10` is `Int.fdiv` of millisecond
quantities. -/
def calculateTimeBonus (startTime endTime : Option Int) : Int :=
  match startTime, endTime with
  | some s, some e =>
    if s == 0 || e == 0 then 0
    else if e - s ≤ 120000 then 1000
    else max 0 (1000 - Int.fdiv (e - s - 120000) 6000)
  | _, _ => 0

/-- `checkWinCondition()` (part_002 lines 817-836).  `now` stands for
the `Date.now()` call.  The spider branch reads
`this.completedSequences.length`, a fault when that field is
`undefined`. -/
def checkWinCondition (g : GameState) (now : Int) : Option GameState :=
  if g.gameType == some "spider" then
    match g.completedSequences with
    | none => none
    | some seqs =>
      let expectedSequences : Int := if g.spiderSuits == some 1 then 4 else 8
      if (seqs.length : Int) ≥ expectedSequences then
        some { g with gameWon := true, endTime := some now,
                      score := g.score + calculateTimeBonus g.startTime (some now) }
      else some g
  else
    if ((g.foundation.map List.length).sum : Int) == 52 then
      some { g with gameWon := true, endTime := some now,
                    score := g.score + calculateTimeBonus g.startTime (some now) }
    else some g

/-- `canMoveToAnyFoundation(card)` (part_002 lines 888-895): the loop
reads `this.foundation[i]` for `i < 4`; every state built by the
modelled operations has exactly four foundation piles, so the
`getD []` default (where JS would fault on `undefined`) never
arises. -/
def canMoveToAnyFoundation (g : GameState) (card : Card) : Bool :=
  (List.range 4).any fun i =>
    card.canPlaceOnFoundation ((jsIndex g.foundation (i : Int)).getD [])

/-- The availability condition computed by `checkAutoComplete()`
(part_002 lines 865-882): every tableau card face-up, the waste empty
or wholly foundation-eligible, and the stock empty. -/
def autoAvailNow (g : GameState) : Bool :=
  (g.tableau.all fun column => column.all fun card => card.faceUp) &&
    (g.waste.isEmpty || g.waste.all fun card => g.canMoveToAnyFoundation card) &&
    g.stock.isEmpty

/-- `checkAutoComplete()` (part_002 lines 858-883): spider states get
`false`, klondike states get the recomputed availability flag. -/
def checkAutoComplete (g : GameState) : GameState :=
  if g.gameType == some "spider" then { g with autoCompleteAvailable := false }
  else { g with autoCompleteAvailable := g.autoAvailNow }

/-- `createSnapshot()` (part_002 lines 974-995).  The spider branch
maps over `this.completedSequences`, a fault when that field is
`undefined`. -/
def createSnapshot (g : GameState) : Option Snapshot :=
  if g.gameType == some "spider" then
    match g.completedSequences with
    | none => none
    | some seqs =>
      some { tableau := g.tableau, stock := g.stock, score := g.score,
             stockCycles := g.stockCycles, emptyColumnsCreated := g.emptyColumnsCreated,
             gameType := g.gameType, foundation := none, waste := none,
             completedSequences := some seqs, spiderSuits := g.spiderSuits }
  else
    some { tableau := g.tableau, stock := g.stock, score := g.score,
           stockCycles := g.stockCycles, emptyColumnsCreated := g.emptyColumnsCreated,
           gameType := g.gameType, foundation := some g.foundation, waste := some g.waste,
           completedSequences := none, spiderSuits := none }

/-- `recordMove(move)` (part_002 lines 945-956): append the snapshot
of the current (already mutated) state and drop the oldest entry
beyond 100. -/
def recordMove (g : GameState) : Option GameState :=
  match g.createSnapshot with
  | none => none
  | some snap =>
    let h := g.moveHistory ++ [snap]
    some { g with moveHistory := if h.length > 100 then h.drop 1 else h }

/-- `restoreSnapshot(snapshot)` (part_002 lines 1000-1022).
`snapshot.gameType || this.gameType` keeps the current game type when
the stored one is `undefined` (game types are never the falsy `""`),
and `snapshot.spiderSuits || 1` defaults to 1 (stored suit counts are
never the falsy `0`). -/
def restoreSnapshot (g : GameState) (snapshot : Snapshot) : GameState :=
  let g1 : GameState :=
    { g with tableau := snapshot.tableau, stock := snapshot.stock, score := snapshot.score,
             stockCycles := snapshot.stockCycles,
             emptyColumnsCreated := snapshot.emptyColumnsCreated,
             gameType := snapshot.gameType.orElse fun _ => g.gameType }
  if g1.gameType == some "spider" then
    ({ g1 with completedSequences := some (snapshot.completedSequences.getD []),
               spiderSuits := some (snapshot.spiderSuits.getD 1) }).checkAutoComplete
  else
    ({ g1 with foundation := snapshot.foundation.getD [[], [], [], []],
               waste := snapshot.waste.getD [] }).checkAutoComplete

/-- `undoLastMove()` (part_002 lines 961-969): pop the most recent
history entry, restore its snapshot, and count the undo as a move. -/
def undoLastMove (g : GameState) : Bool × GameState :=
  match g.moveHistory.getLast? with
  | none => (false, g)
  | some lastMove =>
    let g1 := { g with moveHistory := g.moveHistory.dropLast }
    let g2 := g1.restoreSnapshot lastMove
    (true, { g2 with moves := g2.moves + 1 })

/-- The reveal step of `moveCards` (part_002 lines 646-652): if the
move came from a tableau column whose new top card is face-down, flip
that card face-up in place.  This is the sole reveal trigger. -/
def flipSourceTop (g : GameState) (fromArea : String) (fromIndex : Int) : GameState :=
  if fromArea == "tableau" then
    match g.getCardArray "tableau" fromIndex with
    | some col =>
      match col.getLast? with
      | some topCard =>
        if !topCard.faceUp then
          g.setCardArray "tableau" fromIndex (col.dropLast ++ [{ topCard with faceUp := true }])
        else g
      | none => g
    | none => g
  else g

/-- The mutation block of a validated `moveCards` (part_002 lines
641-662): splice the cards out of the live source array, push them
onto the live target array (re-read after the splice, since source and
target may be the same array object), flip a newly exposed face-down
source-tableau top, update the score, count created empty columns
against the live target length, and count the move. -/
def applyMove (g : GameState) (fromArea : String) (fromIndex : Int)
    (toArea : String) (toIndex : Int) (cardCount : Int)
    (sourceCards cardsToMove : List Card) : GameState :=
  let g1 := g.setCardArray fromArea fromIndex (jsSpliceKeep sourceCards (-cardCount) cardCount)
  let g2 := g1.setCardArray toArea toIndex
      (((g1.getCardArray toArea toIndex).getD []) ++ cardsToMove)
  let g3 := flipSourceTop g2 fromArea fromIndex
  let g4 := g3.updateScore fromArea toArea cardCount
  let g5 :=
    if toArea == "tableau" &&
        ((((g4.getCardArray toArea toIndex).getD []).length : Int) == cardCount) then
      { g4 with emptyColumnsCreated := g4.emptyColumnsCreated + 1 }
    else g4
  { g5 with moves := g5.moves + 1 }

/-- `moveCards(fromArea, fromIndex, toArea, toIndex, cardCount)`
(part_002 lines 616-668).  `now` stands for `Date.now()` inside
`checkWinCondition`.  An unresolved or empty source returns `false`
untouched; `cardsToMove` is the trailing `slice(-cardCount)` of the
source (so an oversized count is clamped to the whole pile and a zero
or negative count still selects a suffix without removing it). -/
def moveCards (g : GameState) (fromArea : String) (fromIndex : Int)
    (toArea : String) (toIndex : Int) (cardCount : Int) (now : Int) :
    Option (Bool × GameState) :=
  match g.getCardArray fromArea fromIndex with
  | none => some (false, g)
  | some sourceCards =>
    if sourceCards.isEmpty then some (false, g)
    else
      let cardsToMove := jsSliceFrom sourceCards (-cardCount)
      match g.isValidMove cardsToMove fromArea toArea (g.getCardArray toArea toIndex) toIndex with
      | none => none
      | some false => some (false, g)
      | some true =>
        let g6 := g.applyMove fromArea fromIndex toArea toIndex cardCount sourceCards cardsToMove
        match g6.recordMove with
        | none => none
        | some g7 =>
          match g7.checkWinCondition now with
          | none => none
          | some g8 => some (true, g8.checkAutoComplete)

/-- The draw loop of `drawFromStock` (part_002 lines 598-603): pop a
card off the stock, flip it face-up, push it onto the waste. -/
def drawLoop : List Card → List Card → Nat → List Card × List Card
  | stock, waste, 0 => (stock, waste)
  | stock, waste, n + 1 =>
    match stock.getLast? with
    | none => (stock, waste)
    | some card => drawLoop stock.dropLast (waste ++ [{ card with faceUp := true }]) n

/-- `drawFromStock()` (part_002 lines 577-611): with an empty stock
and empty waste, fail; with an empty stock, first recycle the reversed
waste face-down into the stock (counting a stock cycle and recording a
snapshot); then in all non-failing cases draw
`min(drawCount, stock.length)` cards to the waste and record a
snapshot. -/
def drawFromStock (g : GameState) : Option (Bool × GameState) :=
  if g.stock.isEmpty && g.waste.isEmpty then some (false, g)
  else
    let afterRecycle : Option GameState :=
      if g.stock.isEmpty then
        ({ g with stock := (g.waste.reverse).map (fun (card : Card) => { card with faceUp := false }),
                  waste := [], stockCycles := g.stockCycles + 1 }).recordMove
      else some g
    match afterRecycle with
    | none => none
    | some g1 =>
      let cardsToDraw := (min g.drawCount (g1.stock.length : Int)).toNat
      let sw := drawLoop g1.stock g1.waste cardsToDraw
      match ({ g1 with stock := sw.1, waste := sw.2 }).recordMove with
      | none => none
      | some g2 => some (true, g2)

/-- The inner loop body of `autoComplete()` for one tableau column
(part_002 lines 910-923): take the column's top card, find the first
of the four foundation piles accepting it, and call `moveCards` —
whose boolean result is discarded, `madeMove` being set merely because
a candidate was found.  States built by the modelled operations always
have four foundation piles, so the `getD []` default (where JS would
fault) never arises. -/
def autoTryColumn (g : GameState) (col : Nat) (now : Int) : Option (GameState × Bool) :=
  match jsIndex g.tableau (col : Int) with
  | none => some (g, false)
  | some column =>
    match column.getLast? with
    | none => some (g, false)
    | some topCard =>
      match (List.range 4).find?
          (fun i => topCard.canPlaceOnFoundation ((jsIndex g.foundation (i : Int)).getD [])) with
      | none => some (g, false)
      | some foundIndex =>
        match g.moveCards "tableau" (col : Int) "foundation" (foundIndex : Int) 1 now with
        | none => none
        | some (_, g') => some (g', true)

/-- The tableau sweep of one `autoComplete()` pass, over the column
indices fixed at loop entry (the column count of 7 never changes). -/
def autoPassCols (now : Int) : List Nat → GameState → Bool → Option (GameState × Bool)
  | [], g, madeMove => some (g, madeMove)
  | col :: rest, g, madeMove =>
    match g.autoTryColumn col now with
    | none => none
    | some (g', m) => autoPassCols now rest g' (madeMove || m)

/-- The waste step of one `autoComplete()` pass (part_002 lines
926-936), with the same discarded `moveCards` result. -/
def autoTryWaste (g : GameState) (now : Int) : Option (GameState × Bool) :=
  match g.waste.getLast? with
  | none => some (g, false)
  | some topCard =>
    match (List.range 4).find?
        (fun i => topCard.canPlaceOnFoundation ((jsIndex g.foundation (i : Int)).getD [])) with
    | none => some (g, false)
    | some foundIndex =>
      match g.moveCards "waste" 0 "foundation" (foundIndex : Int) 1 now with
      | none => none
      | some (_, g') => some (g', true)

/-- One iteration of the `while (madeMove)` loop of `autoComplete()`:
sweep the tableau columns, then try the waste top. -/
def autoPass (g : GameState) (now : Int) : Option (GameState × Bool) :=
  match autoPassCols now (List.range g.tableau.length) g false with
  | none => none
  | some (g1, made1) =>
    match g1.autoTryWaste now with
    | none => none
    | some (g2, made2) => some (g2, made1 || made2)

/-- The `while (madeMove)` loop of `autoComplete()`, fuelled: the JS
loop has no bound of its own (and can in fact spin forever when the
first foundation pile accepting a card is not the pile of its suit, as
`moveCards` then returns `false` while `madeMove` is still set).
`fuel` bounds the number of passes a particular call performed. -/
def autoLoop (now : Int) : Nat → GameState → Option GameState
  | 0, g => some g
  | fuel + 1, g =>
    match g.autoPass now with
    | none => none
    | some (g', true) => autoLoop now fuel g'
    | some (g', false) => some g'

/-- `autoComplete()` (part_002 lines 900-940), state effect only (the
returned move list is replay metadata for the caller).  An unavailable
auto-complete returns `false` without touching the state. -/
def autoComplete (g : GameState) (now : Int) (fuel : Nat) : Option GameState :=
  if !g.autoCompleteAvailable then some g else autoLoop now fuel g

end GameState

/-- A deal produced by the `Deck` dealers (part_003): the four piles
handed to `newGame`. -/
structure Deal where
  tableau : List (List Card)
  foundation : List (List Card)
  stock : List Card
  waste : List Card
deriving DecidableEq, Repr, Inhabited

/-- `createDeck()` (part_003 lines 13-23): thirteen ranks per suit in
the fixed suit order, all face-down. -/
def freshDeck : List Card :=
  (suitOrder.map fun suit =>
    (List.range 13).map fun r => ({ rank := (r : Int) + 1, suit := suit, faceUp := false } : Card)).flatten

/-- The `row === col` face-up rule of `Deck.deal()` (part_003 lines
50-59): exactly the last card of a dealt column is flipped face-up,
the cards below keep their orientation. -/
def faceUpLast : List Card → List Card
  | [] => []
  | [c] => [{ c with faceUp := true }]
  | c :: rest => c :: faceUpLast rest

/-- `Deck.deal()` (part_003 lines 39-72) applied to the
already-shuffled card order: the triangular tableau (column `col`
holds `col + 1` cards starting at offset `col * (col + 1) / 2`), the
remaining 24 cards as stock, empty foundations and waste.  The
Fisher-Yates shuffle is nondeterministic; reachability quantifies over
every permutation of `freshDeck` as the `cards` argument. -/
def dealKlondike (cards : List Card) : Deal where
  tableau := (List.range 7).map fun col =>
    faceUpLast ((cards.drop (col * (col + 1) / 2)).take (col + 1))
  foundation := [[], [], [], []]
  stock := cards.drop 28
  waste := []

/-- `createWinnableDeal`'s completed foundations (part_003 lines
90-94): rank 1..13 per suit, face-down as constructed. -/
def fullFoundations : List (List Card) :=
  suitOrder.map fun suit =>
    (List.range 13).map fun r => ({ rank := (r : Int) + 1, suit := suit, faceUp := false } : Card)

/-- The pop-and-push loop of `executeUndoMove` (part_003 lines
167-172): move up to `n` cards from the end of one pile to the end of
the other, flipping each face-up. -/
def popPush : List Card → List Card → Nat → List Card × List Card
  | fromPile, toPile, 0 => (fromPile, toPile)
  | fromPile, toPile, n + 1 =>
    match fromPile.getLast? with
    | none => (fromPile, toPile)
    | some card => popPush fromPile.dropLast (toPile ++ [{ card with faceUp := true }]) n

/-- `executeUndoMove(move, foundation, tableau, stock)` (part_003
lines 162-173).  The generator only emits `fromSuit < 4`,
`toColumn < 7` and `cardCount` 1..3, captured here by the `Fin`
types; both piles therefore resolve and the `getD []` defaults never
arise. -/
def executeUndoMove (fromSuit : Fin 4) (toColumn : Fin 7) (cardCount : Nat)
    (foundation tableau : List (List Card)) :
    List (List Card) × List (List Card) :=
  let fromPile := (jsIndex foundation (fromSuit.val : Int)).getD []
  let toPile := (jsIndex tableau (toColumn.val : Int)).getD []
  let r := popPush fromPile toPile cardCount
  (jsSet foundation (fromSuit.val : Int) r.1, jsSet tableau (toColumn.val : Int) r.2)

/-- The fold of `createWinnableDeal` over its generated undo moves
(part_003 lines 104-107). -/
def runUndoMoves : List (Fin 4 × Fin 7 × Nat) →
    List (List Card) × List (List Card) → List (List Card) × List (List Card)
  | [], ft => ft
  | m :: rest, ft => runUndoMoves rest (executeUndoMove m.1 m.2.1 m.2.2 ft.1 ft.2)

/-- `setTableauFaceStates` (part_003 lines 178-186) on one column:
only the last card ends face-up. -/
def setFaceStates : List Card → List Card
  | [] => []
  | [c] => [{ c with faceUp := true }]
  | c :: rest => { c with faceUp := false } :: setFaceStates rest

/-- The deterministic part of `createWinnableDeal` (part_003 lines
78-125): the face-normalised tableau after the undo moves, and the
cards left on the foundations (spliced out suit by suit) that are
shuffled into the stock. -/
def winnableParts (moves : List (Fin 4 × Fin 7 × Nat)) :
    List (List Card) × List Card :=
  let ft := runUndoMoves moves (fullFoundations, [[], [], [], [], [], [], []])
  (ft.2.map setFaceStates, ft.1.flatten)

/-- `createWinnableDeal()` (part_003 lines 78-132): foundations are
reset to empty, the waste starts empty, and the stock is the shuffled
remainder — reachability quantifies over every permutation of
`(winnableParts moves).2` as `stockCards`. -/
def createWinnableDeal (moves : List (Fin 4 × Fin 7 × Nat)) (stockCards : List Card) : Deal where
  tableau := (winnableParts moves).1
  foundation := [[], [], [], []]
  stock := stockCards
  waste := []

/-- The stock half of `buryImportantCards` (part_003 lines 206-221):
a stable partition putting rank ≤ 3 cards at the bottom of the
stock. -/
def buryStock (stock : List Card) : List Card :=
  stock.filter (fun card => decide (card.rank ≤ 3)) ++
    stock.filter (fun card => !(decide (card.rank ≤ 3)))

/-- The scan of `buryImportantCards` down one column (part_003 lines
228-231): the topmost face-up card of rank ≤ 2 not already at the
bottom. -/
def findBuryIdx (column : List Card) : Option Nat :=
  ((List.range column.length).reverse).find? fun i =>
    match column.get? i with
    | some card => card.faceUp && decide (card.rank ≤ 2) && decide (0 < i)
    | none => false

/-- JS `column.splice(targetIndex, 0, card)`: insertion at an index
that is at most the length. -/
def jsInsertAt {α : Type} (xs : List α) (i : Nat) (v : α) : List α :=
  xs.take i ++ v :: xs.drop i

/-- The tableau half of `buryImportantCards` on one column (part_003
lines 224-245): move the found card two positions down (`Nat`
subtraction models `Math.max(0, i - 2)`), flip it face-down, and
re-expose whatever is now on top. -/
def buryColumn (column : List Card) : List Card :=
  if column.length > 1 then
    match findBuryIdx column with
    | none => column
    | some i =>
      match column.get? i with
      | none => column
      | some card =>
        let inserted := jsInsertAt (column.eraseIdx i) (i - 2) { card with faceUp := false }
        match inserted.getLast? with
        | none => inserted
        | some topCard => inserted.dropLast ++ [{ topCard with faceUp := true }]
  else column

/-- `createHardDeal()` (part_003 lines 191-201): a standard deal with
the stock reordered and low cards buried.  Its two successive
Fisher-Yates shuffles compose to an arbitrary permutation, which
reachability supplies as the `cards` argument. -/
def createHardDeal (cards : List Card) : Deal :=
  let d := dealKlondike cards
  { d with tableau := d.tableau.map buryColumn, stock := buryStock d.stock }

/-- `newGame(difficulty)` (part_002 lines 538-572) with the selected
deal passed in: reset, configure, install the deal, recompute the
auto-complete flag, and record the initial snapshot. -/
def GameState.newGame (difficulty : String) (deal : Deal) (now : Int) : Option GameState :=
  let g : GameState :=
    { GameState.reset with
        difficulty := difficulty,
        drawCount := if difficulty == "hard" then 3 else 1,
        startTime := some now,
        tableau := deal.tableau, foundation := deal.foundation,
        stock := deal.stock, waste := deal.waste }
  g.checkAutoComplete.recordMove

/-- The states reachable from a fresh Klondike deal (standard,
winnable or hard, over all shuffle/generator outcomes) by any
sequence of `moveCards`, `drawFromStock`, `undoLastMove` and
`autoComplete` calls.  Each operation takes its own arbitrary
`Date.now()` value; `autoComplete` is additionally indexed by the
number of passes its unbounded loop performed. -/
inductive Reach : GameState → Prop
  | medium (cards : List Card) (now : Int) (g : GameState) :
      cards.Perm freshDeck →
      GameState.newGame "medium" (dealKlondike cards) now = some g → Reach g
  | easy (moves : List (Fin 4 × Fin 7 × Nat)) (stockCards : List Card) (now : Int)
      (g : GameState) :
      15 ≤ moves.length → moves.length ≤ 25 →
      (∀ m ∈ moves, 1 ≤ m.2.2 ∧ m.2.2 ≤ 3) →
      stockCards.Perm (winnableParts moves).2 →
      GameState.newGame "easy" (createWinnableDeal moves stockCards) now = some g → Reach g
  | hard (cards : List Card) (now : Int) (g : GameState) :
      cards.Perm freshDeck →
      GameState.newGame "hard" (createHardDeal cards) now = some g → Reach g
  | move (g g' : GameState) (fromArea : String) (fromIndex : Int) (toArea : String)
      (toIndex : Int) (cardCount : Int) (now : Int) (b : Bool) :
      Reach g → g.moveCards fromArea fromIndex toArea toIndex cardCount now = some (b, g') →
      Reach g'
  | draw (g g' : GameState) (b : Bool) :
      Reach g → g.drawFromStock = some (b, g') → Reach g'
  | undo (g : GameState) : Reach g → Reach (g.undoLastMove).2
  | auto (g g' : GameState) (now : Int) (fuel : Nat) :
      Reach g → g.autoComplete now fuel = some g' → Reach g'

/-- The snapshot produced by `createSnapshot()` on a non-spider state
(the klondike branch of part_002 lines 974-995). -/
def klondikeSnap (g : GameState) : Snapshot where
  tableau := g.tableau
  stock := g.stock
  score := g.score
  stockCycles := g.stockCycles
  emptyColumnsCreated := g.emptyColumnsCreated
  gameType := g.gameType
  foundation := some g.foundation
  waste := some g.waste
  completedSequences := none
  spiderSuits := none

/-- The history produced by `recordMove()` on a non-spider state:
append the klondike snapshot and drop the oldest entry beyond 100. -/
def recordHist (g : GameState) : List Snapshot :=
  if (g.moveHistory ++ [klondikeSnap g]).length > 100 then
    (g.moveHistory ++ [klondikeSnap g]).drop 1
  else g.moveHistory ++ [klondikeSnap g]

/-- Total number of cards over all piles of a Klondike state. -/
def GameState.totalCards (g : GameState) : Nat :=
  (g.tableau.map List.length).sum + (g.foundation.map List.length).sum +
    g.stock.length + g.waste.length

/-- Number of occurrences of the card identity `(rank, suit)` over all
piles of a Klondike state. -/
def GameState.countCard (g : GameState) (rank : Int) (suit : String) : Nat :=
  ((g.tableau.flatten ++ g.foundation.flatten ++ g.stock ++ g.waste).filter
    (fun c => c.rank == rank && c.suit == suit)).length

/-- A contiguous ascending same-suit run: the cards carry `suit` and
the ranks `r, r + 1, r + 2, ...` in order. -/
def foundationRunB (suit : String) : Int → List Card → Bool
  | _, [] => true
  | r, c :: rest => (c.suit == suit) && (c.rank == r) && foundationRunB suit (r + 1) rest

/-- A legal foundation pile: empty, or a contiguous ascending run of
its bottom card's suit starting at rank 1 (the Ace). -/
def foundationPileOkB (pile : List Card) : Bool :=
  match pile with
  | [] => true
  | c :: _ => foundationRunB c.suit 1 pile

/-- Every pile of a foundation list is legal. -/
def foundationsOk (piles : List (List Card)) : Prop :=
  ∀ pile ∈ piles, foundationPileOkB pile = true

/-- A history snapshot whose restoration keeps the foundation
invariant: it was taken from a klondike state (`gameType` absent) and
the foundation piles it stores (defaulting to four empty piles, as
`restoreSnapshot` does) are legal. -/
def Snapshot.Ok (snap : Snapshot) : Prop :=
  snap.gameType = none ∧ foundationsOk (snap.foundation.getD [[], [], [], []])

/-- The induction invariant behind C8: the state is klondike-typed
(`gameType` is never assigned anywhere in the repository), every
current foundation pile is legal, and so is every foundation pile
stored in an undo snapshot (the piles `undoLastMove` can
reinstate). -/
def GameState.StateInv (g : GameState) : Prop :=
  g.gameType = none ∧ foundationsOk g.foundation ∧ ∀ snap ∈ g.moveHistory, snap.Ok

/-- The score delta claimed by C6 for a successful
`moveCards(fromArea, _, toArea, _, cardCount)` call: `+10·n` to a
foundation, `+5·n` waste→tableau, `−15·n` foundation→tableau, else
unchanged (`n` being the `cardCount` argument). -/
def c6Base (fromArea toArea : String) (cardCount : Int) : Int :=
  if toArea == "foundation" then 10 * cardCount
  else if fromArea == "waste" && toArea == "tableau" then 5 * cardCount
  else if fromArea == "foundation" && toArea == "tableau" then -15 * cardCount
  else 0

/-- The success condition of the amended C5 for a foundation-destination
move, stated declaratively for comparison with the code: the clamped
move-set is a single card that `canPlaceOnFoundation` accepts on the
addressed pile, and the addressed index is the index of the card's own
suit. -/
def foundationMoveAllowed (sourceCards targetPile : List Card)
    (toIndex cardCount : Int) : Bool :=
  match jsSliceFrom sourceCards (-cardCount) with
  | [c] => c.canPlaceOnFoundation targetPile && (jsIndex suitOrder toIndex == some c.suit)
  | _ => false

/-- A fresh medium game dealt from the unshuffled deck (a legal
Fisher-Yates outcome); its first tableau column is the single face-up
Ace of hearts. -/
def g0 : GameState := (GameState.newGame "medium" (dealKlondike freshDeck) 0).getD default

/-- The state after `moveCards('tableau', 0, 'foundation', 0, 0)` on
`g0`: the zero count splices nothing out of the column but still
pushes the validated Ace of hearts onto the foundation. -/
def c7state : GameState :=
  ((g0.moveCards "tableau" 0 "foundation" 0 0 0).getD (false, default)).2

/-- The state after one `drawFromStock()` on `g0`. -/
def c1drawn : GameState := ((g0.drawFromStock).getD (false, default)).2

/-- A state whose only card is a face-up King of hearts on tableau
column 0. -/
def c2State : GameState :=
  { GameState.reset with tableau := [[⟨13, "hearts", true⟩], [], [], [], [], [], []] }

/-- Result of asking `c2State` to move two cards out of its one-card
column onto the empty column 1. -/
def c2After : GameState :=
  ((c2State.moveCards "tableau" 0 "tableau" 1 2 0).getD (false, default)).2

/-- A spider-typed state with an 8 of diamonds on column 0 and a 7 of
hearts on column 1 (`gameType` set as the spider code paths assume). -/
def spiderState : GameState :=
  { GameState.reset with
    gameType := some "spider",
    tableau := [[⟨8, "diamonds", true⟩], [⟨7, "hearts", true⟩], [], [], [], [], []] }

/-- A Klondike state with an empty stock and five face-up waste
cards. -/
def c4State : GameState :=
  { GameState.reset with
    waste := [⟨5, "hearts", true⟩, ⟨6, "clubs", true⟩, ⟨7, "hearts", true⟩,
              ⟨8, "clubs", true⟩, ⟨9, "hearts", true⟩] }

/-- Result of `drawFromStock()` on `c4State`. -/
def c4After : GameState := ((c4State.drawFromStock).getD (false, default)).2

/-- A state whose only card is a face-up Ace of hearts on tableau
column 0. -/
def c5State : GameState :=
  { GameState.reset with tableau := [[⟨1, "hearts", true⟩], [], [], [], [], [], []] }

/-- Result of moving five cards from the one-card column of `c5State`
to foundation pile 0. -/
def c5After : GameState :=
  ((c5State.moveCards "tableau" 0 "foundation" 0 5 0).getD (false, default)).2

/-- A Klondike state one card short of winning: three complete
foundations, the spades foundation up to the Queen, and the King of
spades alone on tableau column 0. -/
def c6State : GameState :=
  { GameState.reset with
    startTime := some 1,
    tableau := [[⟨13, "spades", true⟩], [], [], [], [], [], []],
    foundation := [
      (List.range 13).map (fun r => (⟨(r : Int) + 1, "hearts", true⟩ : Card)),
      (List.range 13).map (fun r => (⟨(r : Int) + 1, "diamonds", true⟩ : Card)),
      (List.range 13).map (fun r => (⟨(r : Int) + 1, "clubs", true⟩ : Card)),
      (List.range 12).map (fun r => (⟨(r : Int) + 1, "spades", true⟩ : Card))] }

/-- Result of the winning move on `c6State` with `Date.now()` equal to
the start time. -/
def c6After : GameState :=
  ((c6State.moveCards "tableau" 0 "foundation" 3 1 1).getD (false, default)).2

/-- A Klondike state in which auto-complete is genuinely available:
all tableau cards face-up, stock empty, both waste cards
foundation-eligible Aces. -/
def c9State : GameState :=
  { GameState.reset with
    tableau := [[⟨2, "hearts", true⟩], [], [], [], [], [], []],
    waste := [⟨1, "hearts", true⟩, ⟨1, "diamonds", true⟩],
    autoCompleteAvailable := true }

/-- Result of `drawFromStock()` on `c9State`: the recycle leaves a
card in the stock, but the availability flag is not recomputed. -/
def c9After : GameState := ((c9State.drawFromStock).getD (false, default)).2

/-- A concrete klondike snapshot whose stored piles differ from the
live state of `c10State` in every restored field. -/
def c10Snap : Snapshot where
  tableau := [[], [], [], [], [], [], []]
  stock := [⟨13, "hearts", false⟩]
  score := 5
  stockCycles := 1
  emptyColumnsCreated := 0
  gameType := none
  foundation := some [[⟨1, "spades", true⟩], [], [], []]
  waste := some [⟨2, "diamonds", true⟩]
  completedSequences := none
  spiderSuits := none

/-- A state carrying `c10Snap` as its one history entry, used to
exercise `undoLastMove` concretely. -/
def c10State : GameState :=
  { GameState.reset with
    tableau := [[⟨13, "hearts", true⟩], [], [], [], [], [], []],
    score := 25, stockCycles := 2, emptyColumnsCreated := 1, moves := 7,
    gameWon := true, endTime := some 99,
    moveHistory := [c10Snap] }

/-- The result of the legal single-card Ace move from `c5State` to
foundation pile 0, used as a concrete successful `moveCards` call. -/
def aceToFoundation : GameState :=
  ((c5State.moveCards "tableau" 0 "foundation" 0 1 3).getD (false, default)).2

/-- C1 (code bug): `recordMove` snapshots the state *after* the move
it records, so `undoLastMove` pops that snapshot and reinstates the
very state the game is already in.  Concretely: drawing a card from
`g0` and then undoing returns `true` but leaves the drawn card on the
waste (the piles stay at their post-draw values, which differ from the
pre-draw state), and the undo itself increments the move counter.
The claimed undo round-trip to the pre-move serialized state
therefore fails. -/
theorem c1_undo_restores_post_move_state :
    g0.drawFromStock = some (true, c1drawn) ∧
    (c1drawn.undoLastMove).1 = true ∧
    (c1drawn.undoLastMove).2.waste = c1drawn.waste ∧
    (c1drawn.undoLastMove).2.tableau = c1drawn.tableau ∧
    (c1drawn.undoLastMove).2.stock = c1drawn.stock ∧
    c1drawn.waste ≠ g0.waste ∧
    (c1drawn.undoLastMove).2.moves = c1drawn.moves + 1 := by decide

/-- C3 (code bug): the spider branch of `isValidMove` calls
`movingCard.canPlaceOnTableau(targetCard, 'spider')`, but the `Card`
method takes no variant parameter, so JavaScript ignores the argument
and applies the Klondike rule.  Placing the 7 of hearts on the 8 of
diamonds (one rank down, suit irrelevant in spider) is rejected
because both cards are red, and placing a 5 on an empty column is
rejected because the card is not a King — contradicting the claimed
spider placement predicate on both counts. -/
theorem c3_spider_placement_uses_klondike_rule :
    spiderState.moveCards "tableau" 1 "tableau" 0 1 0 = some (false, spiderState) ∧
    spiderState.moveCards "tableau" 1 "tableau" 2 1 0 = some (false, spiderState) ∧
    Card.canPlaceOnTableau ⟨7, "hearts", true⟩ (some ⟨8, "diamonds", true⟩) = false ∧
    Card.canPlaceOnTableau ⟨5, "hearts", true⟩ none = false := by decide

/-- C7 (code bug): `moveCards` never validates `cardCount`, and
`slice(-0)` selects the whole source pile while `splice(-0, 0)`
removes nothing.  From the reachable fresh deal `g0`, the call
`moveCards('tableau', 0, 'foundation', 0, 0)` passes validation (the
one-card column yields a one-card move-set) and pushes the Ace of
hearts onto the foundation without removing it from the tableau: the
reachable state `c7state` holds 53 cards, with the Ace of hearts
duplicated. -/
theorem c7_zero_count_duplicates_card :
    Reach c7state ∧ c7state.totalCards = 53 ∧ c7state.countCard 1 "hearts" = 2 := by
  refine ⟨Reach.move g0 c7state "tableau" 0 "foundation" 0 0 0 true ?_ (by decide),
    by decide, by decide⟩
  exact Reach.medium freshDeck 0 g0 (List.Perm.refl _) (by decide)

/-- C2 counterexample: the source column of `c2State` holds one card,
yet `moveCards` with `cardCount = 2` returns `true` and mutates the
tableau — the claimed rejection of a `cardCount` exceeding the source
pile does not exist in the code (the slice clamps instead). -/
theorem c2_oversized_count_not_rejected :
    ((c2State.getCardArray "tableau" 0).getD []).length = 1 ∧
    c2State.moveCards "tableau" 0 "tableau" 1 2 0 = some (true, c2After) ∧
    c2After.tableau ≠ c2State.tableau := by decide

/-- C4 counterexample: on a state with an empty stock and five waste
cards, `drawFromStock()` does recycle (stockCycles increments) but
then falls through to the draw step, so the resulting stock holds 4
cards and the waste 1 — not the claimed 5-card stock and empty
waste. -/
theorem c4_recycle_also_draws :
    c4State.stock = [] ∧ c4State.waste.length = 5 ∧
    c4State.drawFromStock = some (true, c4After) ∧
    c4After.stockCycles = c4State.stockCycles + 1 ∧
    c4After.stock.length = 4 ∧ c4After.waste ≠ [] := by decide

/-- C5 counterexample: a foundation move with `cardCount = 5` from a
one-card column succeeds (the slice clamps the move-set to one card
and `isValidMove` checks the clamped length, not the argument), so
the claim that success requires `cardCount == 1` is false; the score
even rises by `10 × 5`. -/
theorem c5_oversized_count_accepted_on_foundation :
    c5State.moveCards "tableau" 0 "foundation" 0 5 0 = some (true, c5After) ∧
    (5 : Int) ≠ 1 ∧ c5After.score = c5State.score + 50 := by decide

/-- C6 counterexample: the successful single-card move that completes
the 52nd foundation card triggers `checkWinCondition`, which adds the
time bonus (1000 here, the game having taken under two minutes) on
top of the `+10`, so the score change of a successful foundation move
is not always exactly `+10 × n`. -/
theorem c6_win_bonus_breaks_exact_delta :
    c6State.moveCards "tableau" 0 "foundation" 3 1 1 = some (true, c6After) ∧
    c6After.score = c6State.score + 1010 ∧ (1010 : Int) ≠ 10 * 1 := by decide

/-- C9 counterexample: `drawFromStock` never calls
`checkAutoComplete`.  On `c9State` the flag is consistent (recomputing
it changes nothing), but after a draw that recycles the waste into
the stock the flag remains `true` while the recomputed availability
condition is `false` (the stock is no longer empty) — so the flag
does not track the claimed condition after every mutating
operation. -/
theorem c9_flag_stale_after_draw :
    c9State.checkAutoComplete = c9State ∧
    c9State.drawFromStock = some (true, c9After) ∧
    c9After.stock ≠ [] ∧
    c9After.autoCompleteAvailable = true ∧
    c9After.autoAvailNow = false := by decide

theorem setCardArray_eq (g : GameState) (a : String) (i : Int) (p : List Card) :
    g.setCardArray a i p = { g with
      tableau := if a == "tableau" then jsSet g.tableau i p else g.tableau,
      foundation := if a == "foundation" then jsSet g.foundation i p else g.foundation,
      waste := if a == "waste" then p else g.waste,
      stock := if a == "stock" then p else g.stock } := by
  unfold GameState.setCardArray
  split_ifs <;> simp_all

theorem jsIndex_neg {α : Type} (xs : List α) (i : Int) (h : i < 0) : jsIndex xs i = none := by
  unfold jsIndex
  rw [if_neg]
  omega

theorem mem_jsSet {α : Type} (xs : List α) (i : Int) (p : α) (q : α)
    (h : q ∈ jsSet xs i p) : q = p ∨ q ∈ xs := by
  unfold jsSet at h
  split_ifs at h
  · rcases List.mem_or_eq_of_mem_set h with h1 | h1
    · exact Or.inr h1
    · exact Or.inl h1
  · exact Or.inr h

theorem jsIndex_jsSet_ne {α : Type} (xs : List α) (i j : Int) (p : α) (h : i ≠ j) :
    jsIndex (jsSet xs j p) i = jsIndex xs i := by
  unfold jsIndex jsSet
  split_ifs with h1 h2 <;> try rfl
  exact List.get?_set_ne _ _ (by omega)

theorem jsIndex_jsSet_self {α : Type} (xs : List α) (i : Int) (p : α) (v : α)
    (h : jsIndex xs i = some v) : jsIndex (jsSet xs i p) i = some p := by
  unfold jsIndex at h ⊢
  unfold jsSet
  by_cases h1 : 0 ≤ i
  · rw [if_pos h1] at h
    rw [if_pos h1, if_pos h1]
    have hlen : i.toNat < xs.length := by
      by_contra hc
      rw [List.get?_eq_none.2 (by omega)] at h
      exact Option.noConfusion h
    rw [List.get?_set_eq_of_lt _ hlen]
  · rw [if_neg h1] at h
    exact Option.noConfusion h

theorem jsSpliceKeep_neg {α : Type} (xs : List α) (k : Int) :
    jsSpliceKeep xs (-k) k = xs.take (xs.length - min (max k 0).toNat xs.length) := by
  simp only [jsSpliceKeep, jsNormStart]
  by_cases hk : 0 < k
  · rw [if_pos (by omega : -k < 0)]
    have h1 : (- -k).toNat = k.toNat := by omega
    rw [h1]
    have h2 : min (max k 0).toNat (xs.length - (xs.length - min k.toNat xs.length))
        = min k.toNat xs.length := by omega
    rw [h2]
    have h3 : xs.length - min k.toNat xs.length + min k.toNat xs.length = xs.length := by omega
    rw [h3, List.drop_length, List.append_nil]
    have h4 : (max k 0).toNat = k.toNat := by omega
    rw [h4]
  · rw [if_neg (by omega : ¬ -k < 0)]
    have h2 : (max k 0).toNat = 0 := by omega
    rw [h2]
    simp [List.take_append_drop]

theorem drop_eq_single_getLast {α : Type} (xs : List α) (j : Nat) (c : α)
    (h : xs.drop j = [c]) : xs.getLast? = some c := by
  have h2 : xs = xs.take j ++ [c] := by rw [← h, List.take_append_drop]
  rw [h2, List.getLast?_concat]

theorem foundationRunB_append (suit : String) (r : Int) (pile : List Card) (c : Card) :
    foundationRunB suit r (pile ++ [c]) =
      (foundationRunB suit r pile && ((c.suit == suit) && (c.rank == r + pile.length))) := by
  induction pile generalizing r with
  | nil => simp [foundationRunB]
  | cons a rest ih =>
    have harith : r + 1 + (rest.length : Int) = r + ((rest.length : Int) + 1) := by ring
    simp only [List.cons_append, foundationRunB, List.append_eq, ih (r + 1), List.length_cons]
    push_cast
    rw [harith]
    simp [Bool.and_assoc]

theorem foundationRunB_take (suit : String) (r : Int) (pile : List Card) (m : Nat)
    (h : foundationRunB suit r pile = true) : foundationRunB suit r (pile.take m) = true := by
  induction pile generalizing r m with
  | nil => simp [foundationRunB]
  | cons a rest ih =>
    cases m with
    | zero => simp [foundationRunB]
    | succ m' =>
      simp only [List.take, foundationRunB, Bool.and_eq_true] at h ⊢
      exact ⟨h.1, ih _ _ h.2⟩

theorem foundationRunB_getLast (suit : String) (r : Int) (pile : List Card) (c : Card)
    (h : foundationRunB suit r pile = true) (hl : pile.getLast? = some c) :
    c.suit = suit ∧ c.rank = r + pile.length - 1 := by
  induction pile generalizing r with
  | nil => simp at hl
  | cons a rest ih =>
    cases rest with
    | nil =>
      simp only [List.getLast?_singleton, Option.some.injEq] at hl
      simp only [foundationRunB, Bool.and_eq_true, beq_iff_eq] at h
      subst hl
      exact ⟨h.1.1, by simpa using h.1.2⟩
    | cons b rest' =>
      simp only [foundationRunB, Bool.and_eq_true] at h
      have hl2 : (b :: rest').getLast? = some c := by
        rw [← hl, List.getLast?_cons_cons]
      have := ih (r + 1) (by
        simp only [foundationRunB, Bool.and_eq_true]
        exact h.2) hl2
      refine ⟨this.1, ?_⟩
      have := this.2
      simp only [List.length_cons] at this ⊢
      push_cast at this ⊢
      omega

theorem foundationPileOkB_take (pile : List Card) (m : Nat)
    (h : foundationPileOkB pile = true) : foundationPileOkB (pile.take m) = true := by
  cases pile with
  | nil => simp [foundationPileOkB]
  | cons a rest =>
    cases m with
    | zero => simp [foundationPileOkB]
    | succ m' =>
      simp only [foundationPileOkB, List.take] at h ⊢
      simpa using foundationRunB_take a.suit 1 (a :: rest) (m' + 1) h

theorem foundationPileOkB_push (pile : List Card) (c : Card)
    (hok : foundationPileOkB pile = true)
    (hc : c.canPlaceOnFoundation pile = true) :
    foundationPileOkB (pile ++ [c]) = true := by
  cases pile with
  | nil =>
    simp only [Card.canPlaceOnFoundation, List.getLast?_nil, beq_iff_eq] at hc
    simp [foundationPileOkB, foundationRunB, hc]
  | cons a rest =>
    have hok' : foundationRunB a.suit 1 (a :: rest) = true := hok
    cases hl : (a :: rest).getLast? with
    | none => simp at hl
    | some t =>
      have htop := foundationRunB_getLast a.suit 1 (a :: rest) t hok' hl
      simp only [Card.canPlaceOnFoundation, hl, Bool.and_eq_true, beq_iff_eq] at hc
      show foundationRunB a.suit 1 ((a :: rest) ++ [c]) = true
      rw [foundationRunB_append, Bool.and_eq_true, Bool.and_eq_true]
      refine ⟨hok', beq_iff_eq.2 (hc.1.trans htop.1), beq_iff_eq.2 ?_⟩
      rw [hc.2, htop.2]
      simp only [List.length_cons]
      push_cast
      ring


theorem checkAutoComplete_eq (g : GameState) :
    g.checkAutoComplete = { g with autoCompleteAvailable :=
      (if g.gameType == some "spider" then false else g.autoAvailNow) } := by
  unfold GameState.checkAutoComplete
  split_ifs with h <;> simp [h]

/-- C10: on a state with a non-empty history (and a non-spider
restored game type), `undoLastMove()` returns `true`, replaces the
piles, score, `stockCycles` and `emptyColumnsCreated` with the values
stored in the most recent snapshot, increments `moves` by exactly one,
and leaves `gameWon`, `gameLost`, `startTime`, `endTime`,
`difficulty` and `drawCount` unchanged. -/
theorem c10_undo_restores_snapshot_fields (g : GameState) (snap : Snapshot)
    (hlast : g.moveHistory.getLast? = some snap)
    (hk : (snap.gameType.orElse fun _ => g.gameType) ≠ some "spider") :
    (g.undoLastMove).1 = true ∧
    (g.undoLastMove).2.tableau = snap.tableau ∧
    (g.undoLastMove).2.stock = snap.stock ∧
    (g.undoLastMove).2.foundation = snap.foundation.getD [[], [], [], []] ∧
    (g.undoLastMove).2.waste = snap.waste.getD [] ∧
    (g.undoLastMove).2.score = snap.score ∧
    (g.undoLastMove).2.stockCycles = snap.stockCycles ∧
    (g.undoLastMove).2.emptyColumnsCreated = snap.emptyColumnsCreated ∧
    (g.undoLastMove).2.moves = g.moves + 1 ∧
    (g.undoLastMove).2.gameWon = g.gameWon ∧
    (g.undoLastMove).2.gameLost = g.gameLost ∧
    (g.undoLastMove).2.startTime = g.startTime ∧
    (g.undoLastMove).2.endTime = g.endTime ∧
    (g.undoLastMove).2.difficulty = g.difficulty ∧
    (g.undoLastMove).2.drawCount = g.drawCount := by
  unfold GameState.undoLastMove
  rw [hlast]
  simp only [GameState.restoreSnapshot, checkAutoComplete_eq]
  split_ifs with h
  · exact absurd (by simpa using h) hk
  · simp

/-- C2 (amended): `moveCards` returns `false` and leaves the state
untouched when the source pile is empty or does not resolve; but a
`cardCount` exceeding the source pile is not rejected — the
`slice(-cardCount)` move-set is clamped to the entire pile and the
move proceeds under the normal validation rules. -/
theorem c2_empty_source_and_clamp :
    (∀ (g : GameState) (fromArea : String) (fromIndex : Int) (toArea : String)
        (toIndex : Int) (cardCount : Int) (now : Int),
      (g.getCardArray fromArea fromIndex = none ∨
        g.getCardArray fromArea fromIndex = some []) →
      g.moveCards fromArea fromIndex toArea toIndex cardCount now = some (false, g)) ∧
    (∀ (sourceCards : List Card) (cardCount : Int),
      (sourceCards.length : Int) ≤ cardCount →
      jsSliceFrom sourceCards (-cardCount) = sourceCards) := by
  constructor
  · intro g fa fi ta ti k now h
    unfold GameState.moveCards
    rcases h with h | h <;> rw [h] <;> rfl
  · intro xs k hk
    unfold jsSliceFrom jsNormStart
    by_cases h0 : 0 < k
    · rw [if_pos (by omega : -k < 0)]
      have h1 : xs.length - min (- -k).toNat xs.length = 0 := by omega
      rw [h1, List.drop_zero]
    · have hlen : xs.length = 0 := by omega
      rw [List.length_eq_zero.1 hlen]
      simp

theorem autoAvailNow_checkAutoComplete (g : GameState) :
    (g.checkAutoComplete).autoAvailNow = g.autoAvailNow := by
  rw [checkAutoComplete_eq]
  exact rfl

theorem checkAutoComplete_gameType (g : GameState) :
    (g.checkAutoComplete).gameType = g.gameType := by
  rw [checkAutoComplete_eq]

theorem checkAutoComplete_flag_spec (x : GameState) :
    (x.checkAutoComplete).autoCompleteAvailable =
      (if (x.checkAutoComplete).gameType == some "spider" then false
       else (x.checkAutoComplete).autoAvailNow) := by
  rw [checkAutoComplete_eq]
  exact rfl

/-- C9 (amended): after every successful `moveCards` and every
successful `undoLastMove`, the `autoCompleteAvailable` flag equals the
availability condition recomputed on the resulting state (spider
states always get `false`); `drawFromStock` never recomputes the
flag, which the counterexample shows can therefore go stale. -/
theorem c9_flag_recomputed :
    (∀ (g : GameState) (fromArea : String) (fromIndex : Int) (toArea : String)
        (toIndex : Int) (cardCount : Int) (now : Int) (g' : GameState),
      g.moveCards fromArea fromIndex toArea toIndex cardCount now = some (true, g') →
      g'.autoCompleteAvailable =
        (if g'.gameType == some "spider" then false else g'.autoAvailNow)) ∧
    (∀ (g g' : GameState), g.undoLastMove = (true, g') →
      g'.autoCompleteAvailable =
        (if g'.gameType == some "spider" then false else g'.autoAvailNow)) ∧
    (∀ g : GameState, g.gameType = some "spider" →
      (g.checkAutoComplete).autoCompleteAvailable = false) := by
  refine ⟨?_, ?_, ?_⟩
  · intro g fa fi ta ti k now g' h
    simp only [GameState.moveCards] at h
    split at h
    · simp at h
    · split at h
      · simp at h
      · split at h
        · exact absurd h (by simp)
        · simp at h
        · split at h
          · exact absurd h (by simp)
          · split at h
            · exact absurd h (by simp)
            · simp only [Option.some.injEq, Prod.mk.injEq, true_and] at h
              rw [← h]
              exact checkAutoComplete_flag_spec _
  · intro g g' h
    simp only [GameState.undoLastMove] at h
    split at h
    · simp at h
    · simp only [Prod.mk.injEq, true_and] at h
      rw [← h]
      simp only [GameState.restoreSnapshot]
      split
      · rw [show ∀ (y : GameState) (m : Int), ({ y.checkAutoComplete with moves := m } : GameState).autoCompleteAvailable = (y.checkAutoComplete).autoCompleteAvailable from fun y m => rfl]
        exact checkAutoComplete_flag_spec _
      · exact checkAutoComplete_flag_spec _
  · intro g h
    rw [checkAutoComplete_eq]
    simp [h]


theorem recordMove_eq (g : GameState) (h : (g.gameType == some "spider") = false) :
    g.recordMove = some { g with moveHistory := recordHist g } := by
  simp only [GameState.recordMove, GameState.createSnapshot, h, Bool.false_eq_true, if_false,
    recordHist, klondikeSnap]

theorem recordHist_mem (g : GameState) (s : Snapshot) (hs : s ∈ recordHist g) :
    s ∈ g.moveHistory ∨ s = klondikeSnap g := by
  unfold recordHist at hs
  split at hs
  · rcases List.mem_append.1 (List.mem_of_mem_drop hs) with h3 | h3
    · exact Or.inl h3
    · exact Or.inr (List.mem_singleton.1 h3)
  · rcases List.mem_append.1 hs with h3 | h3
    · exact Or.inl h3
    · exact Or.inr (List.mem_singleton.1 h3)

theorem drawLoop_spec (stock waste : List Card) (k : Nat) (hk : k ≤ stock.length) :
    GameState.drawLoop stock waste k =
      (stock.take (stock.length - k),
       waste ++ (stock.drop (stock.length - k)).reverse.map
         (fun card => ({ card with faceUp := true } : Card))) := by
  induction k generalizing stock waste with
  | zero => simp [GameState.drawLoop]
  | succ n ih =>
    rcases List.eq_nil_or_concat stock with h | ⟨ys, a, rfl⟩
    · subst h
      simp at hk
    · simp only [List.concat_eq_append] at hk ⊢
      have hk' : n ≤ ys.length := by
        simp only [List.length_append, List.length_singleton] at hk
        omega
      unfold GameState.drawLoop
      rw [List.getLast?_concat]
      rw [List.dropLast_concat]
      dsimp only
      have hi := ih ys (waste ++ [({ rank := a.rank, suit := a.suit, faceUp := true } : Card)]) hk'
      rw [hi]
      have hL : (ys ++ [a]).length = ys.length + 1 := by simp
      rw [hL]
      have h1 : ys.length + 1 - (n + 1) = ys.length - n := by omega
      rw [h1]
      rw [Prod.mk.injEq]
      refine ⟨?_, ?_⟩
      · rw [List.take_append_eq_append_take]
        have h2 : ys.length - n - ys.length = 0 := by omega
        rw [h2]
        simp
      · rw [List.drop_append_eq_append_drop]
        have h2 : ys.length - n - ys.length = 0 := by omega
        rw [h2]
        simp

/-- C4 (amended): on a Klondike state with an empty stock and a
non-empty waste of `n` cards, `drawFromStock()` returns `true`,
recycles the waste into the stock face-down with `stockCycles`
incremented by one, and then immediately draws
`min(drawCount, n)` cards back to the waste face-up; the stock
therefore ends with `n - min(drawCount, n)` face-down cards rather
than all `n`, and the waste is not empty. -/
theorem c4_recycle_then_draw (g : GameState) (hk : g.gameType = none)
    (hs : g.stock = []) (hw : g.waste ≠ []) :
    ∃ g', g.drawFromStock = some (true, g') ∧
      g'.stockCycles = g.stockCycles + 1 ∧
      g'.stock.length = g.waste.length - (min g.drawCount (g.waste.length : Int)).toNat ∧
      g'.waste.length = (min g.drawCount (g.waste.length : Int)).toNat ∧
      (∀ c ∈ g'.stock, c.faceUp = false) ∧
      (∀ c ∈ g'.waste, c.faceUp = true) := by
  have hsb : g.stock.isEmpty = true := by rw [hs]; rfl
  have hwb : g.waste.isEmpty = false := by
    rw [List.isEmpty_eq_false]
    exact hw
  unfold GameState.drawFromStock
  rw [hsb, hwb]
  simp only [Bool.true_and, Bool.false_eq_true, if_false, if_true]
  rw [recordMove_eq _ (by simp [hk])]
  dsimp only
  have hlen : ((g.waste.reverse).map (fun (card : Card) => ({ card with faceUp := false } : Card))).length
      = g.waste.length := by simp
  have hdle : (min g.drawCount
      ((((g.waste.reverse).map (fun (card : Card) => ({ card with faceUp := false } : Card))).length : Nat) : Int)).toNat
      ≤ ((g.waste.reverse).map (fun (card : Card) => ({ card with faceUp := false } : Card))).length := by
    omega
  rw [drawLoop_spec _ _ _ hdle]
  rw [recordMove_eq _ (by simp [hk])]
  dsimp only
  refine ⟨_, rfl, by simp, ?_, ?_, ?_, ?_⟩
  · simp only [List.length_take, hlen]
    omega
  · simp only [List.nil_append, List.length_map, List.length_reverse, List.length_drop]
    omega
  · intro c hc
    have h2 := List.take_subset _ _ hc
    rcases List.mem_map.1 h2 with ⟨c0, _, rfl⟩
    rfl
  · intro c hc
    rcases List.mem_append.1 hc with h2 | h2
    · simp at h2
    · rcases List.mem_map.1 h2 with ⟨c0, _, rfl⟩
      rfl

theorem getCardArray_area (g : GameState) (a : String) (i : Int) (src : List Card)
    (h : g.getCardArray a i = some src) :
    a = "tableau" ∨ a = "foundation" ∨ a = "waste" ∨ a = "stock" := by
  unfold GameState.getCardArray at h
  split_ifs at h with h1 h2 h3 h4
  · exact Or.inl (by simpa using h1)
  · exact Or.inr (Or.inl (by simpa using h2))
  · exact Or.inr (Or.inr (Or.inl (by simpa using h3)))
  · exact Or.inr (Or.inr (Or.inr (by simpa using h4)))

theorem getFoundationIndex_area (a : String)
    (h : a = "tableau" ∨ a = "foundation" ∨ a = "waste" ∨ a = "stock") :
    GameState.getFoundationIndex a = -1 := by
  rcases h with rfl | rfl | rfl | rfl <;> decide

theorem setCardArray_score (g : GameState) (a : String) (i : Int) (p : List Card) :
    (g.setCardArray a i p).score = g.score := by
  unfold GameState.setCardArray
  split_ifs <;> rfl

theorem flipSourceTop_score (g : GameState) (fa : String) (fi : Int) :
    (GameState.flipSourceTop g fa fi).score = g.score := by
  unfold GameState.flipSourceTop
  split_ifs
  · split
    · split
      · split
        · rw [setCardArray_score]
        · rfl
      · rfl
    · rfl
  · rfl

theorem flipSourceTop_foundation (g : GameState) (fa : String) (fi : Int) :
    (GameState.flipSourceTop g fa fi).foundation = g.foundation := by
  unfold GameState.flipSourceTop
  split_ifs
  · split
    · split
      · split
        · rw [setCardArray_eq]
          simp
        · rfl
      · rfl
    · rfl
  · rfl

theorem updateScore_score (g : GameState) (fa ta : String) (k : Int)
    (hfa : GameState.getFoundationIndex fa = -1) :
    (g.updateScore fa ta k).score = g.score + c6Base fa ta k := by
  unfold GameState.updateScore c6Base
  rw [hfa, jsIndex_neg _ _ (by norm_num)]
  dsimp only
  split_ifs <;> ring

theorem checkWinCondition_klondike (g : GameState) (now : Int)
    (hsp : (g.gameType == some "spider") = false) :
    g.checkWinCondition now =
      some (if ((g.foundation.map List.length).sum : Int) == 52 then
        { g with gameWon := true, endTime := some now,
                 score := g.score + GameState.calculateTimeBonus g.startTime (some now) }
        else g) := by
  unfold GameState.checkWinCondition
  simp only [hsp, Bool.false_eq_true, if_false]
  split_ifs <;> rfl

theorem setCardArray_gameType (g : GameState) (a : String) (i : Int) (p : List Card) :
    (g.setCardArray a i p).gameType = g.gameType := by
  unfold GameState.setCardArray
  split_ifs <;> rfl

theorem setCardArray_startTime (g : GameState) (a : String) (i : Int) (p : List Card) :
    (g.setCardArray a i p).startTime = g.startTime := by
  unfold GameState.setCardArray
  split_ifs <;> rfl

theorem setCardArray_moveHistory (g : GameState) (a : String) (i : Int) (p : List Card) :
    (g.setCardArray a i p).moveHistory = g.moveHistory := by
  unfold GameState.setCardArray
  split_ifs <;> rfl

theorem flipSourceTop_gameType (g : GameState) (fa : String) (fi : Int) :
    (GameState.flipSourceTop g fa fi).gameType = g.gameType := by
  unfold GameState.flipSourceTop
  split_ifs
  · split
    · split
      · split
        · rw [setCardArray_gameType]
        · rfl
      · rfl
    · rfl
  · rfl

theorem flipSourceTop_startTime (g : GameState) (fa : String) (fi : Int) :
    (GameState.flipSourceTop g fa fi).startTime = g.startTime := by
  unfold GameState.flipSourceTop
  split_ifs
  · split
    · split
      · split
        · rw [setCardArray_startTime]
        · rfl
      · rfl
    · rfl
  · rfl

theorem flipSourceTop_moveHistory (g : GameState) (fa : String) (fi : Int) :
    (GameState.flipSourceTop g fa fi).moveHistory = g.moveHistory := by
  unfold GameState.flipSourceTop
  split_ifs
  · split
    · split
      · split
        · rw [setCardArray_moveHistory]
        · rfl
      · rfl
    · rfl
  · rfl

theorem applyMove_score (g : GameState) (fa : String) (fi : Int) (ta : String) (ti : Int)
    (k : Int) (src mv : List Card) (hfa : GameState.getFoundationIndex fa = -1) :
    (g.applyMove fa fi ta ti k src mv).score = g.score + c6Base fa ta k := by
  unfold GameState.applyMove
  dsimp only
  rw [apply_ite GameState.score]
  dsimp only
  rw [ite_self]
  rw [updateScore_score _ _ _ _ hfa, flipSourceTop_score, setCardArray_score, setCardArray_score]

theorem applyMove_gameType (g : GameState) (fa : String) (fi : Int) (ta : String) (ti : Int)
    (k : Int) (src mv : List Card) :
    (g.applyMove fa fi ta ti k src mv).gameType = g.gameType := by
  unfold GameState.applyMove
  dsimp only
  rw [apply_ite GameState.gameType]
  dsimp only
  rw [ite_self]
  show (GameState.flipSourceTop _ _ _).gameType = _
  rw [flipSourceTop_gameType, setCardArray_gameType, setCardArray_gameType]

theorem applyMove_startTime (g : GameState) (fa : String) (fi : Int) (ta : String) (ti : Int)
    (k : Int) (src mv : List Card) :
    (g.applyMove fa fi ta ti k src mv).startTime = g.startTime := by
  unfold GameState.applyMove
  dsimp only
  rw [apply_ite GameState.startTime]
  dsimp only
  rw [ite_self]
  show (GameState.flipSourceTop _ _ _).startTime = _
  rw [flipSourceTop_startTime, setCardArray_startTime, setCardArray_startTime]

theorem recordMove_inv (g g' : GameState) (h : g.recordMove = some g') :
    g'.score = g.score ∧ g'.foundation = g.foundation ∧ g'.startTime = g.startTime ∧
      g'.gameType = g.gameType := by
  unfold GameState.recordMove at h
  split at h
  · exact Option.noConfusion h
  · simp only [Option.some.injEq] at h
    subst h
    exact ⟨rfl, rfl, rfl, rfl⟩

theorem checkAutoComplete_score (g : GameState) :
    (g.checkAutoComplete).score = g.score := by
  rw [checkAutoComplete_eq]

theorem checkAutoComplete_foundation (g : GameState) :
    (g.checkAutoComplete).foundation = g.foundation := by
  rw [checkAutoComplete_eq]

/-- C6 (amended): every successful non-spider `moveCards` changes the
score by exactly `c6Base fromArea toArea cardCount` — `+10·cardCount`
to a foundation, `+5·cardCount` waste→tableau, `−15·cardCount`
foundation→tableau, `0` otherwise — computed from the RAW `cardCount`
argument, not the clamped move-set size; plus, exactly when the move
brings the foundation total to 52, the win bonus
`calculateTimeBonus` (0 on a falsy `startTime`/`endTime`, 1000 up to
2 minutes elapsed, then `max 0 (1000 - fdiv (elapsedMs - 120000)
6000)`).  The dead `+100` suit-completion bonus (indexed by an area
tag instead of a suit) never fires. -/
theorem c6_score_delta (g : GameState) (fromArea : String) (fromIndex : Int)
    (toArea : String) (toIndex : Int) (cardCount : Int) (now : Int) (g' : GameState)
    (hsp : (g.gameType == some "spider") = false)
    (h : g.moveCards fromArea fromIndex toArea toIndex cardCount now = some (true, g')) :
    g'.score = g.score + c6Base fromArea toArea cardCount +
      (if ((g'.foundation.map List.length).sum : Int) == 52 then
        GameState.calculateTimeBonus g.startTime (some now) else 0) := by
  unfold GameState.moveCards at h
  rcases hsrc : g.getCardArray fromArea fromIndex with _ | sourceCards
  · rw [hsrc] at h
    simp at h
  rw [hsrc] at h
  dsimp only at h
  by_cases hemp : sourceCards.isEmpty = true
  · rw [if_pos hemp] at h
    simp at h
  rw [if_neg hemp] at h
  rcases hval : g.isValidMove (jsSliceFrom sourceCards (-cardCount)) fromArea toArea
      (g.getCardArray toArea toIndex) toIndex with _ | b
  · rw [hval] at h
    simp at h
  rw [hval] at h
  cases b
  · simp at h
  dsimp only at h
  rcases hrec : (g.applyMove fromArea fromIndex toArea toIndex cardCount sourceCards
      (jsSliceFrom sourceCards (-cardCount))).recordMove with _ | g81
  · rw [hrec] at h
    simp at h
  rw [hrec] at h
  dsimp only at h
  rcases hwin : g81.checkWinCondition now with _ | g8
  · rw [hwin] at h
    simp at h
  rw [hwin] at h
  dsimp only at h
  simp only [Option.some.injEq, Prod.mk.injEq, true_and] at h
  subst h
  -- assemble the score chain
  have hA := getCardArray_area g fromArea fromIndex sourceCards hsrc
  have hfa := getFoundationIndex_area fromArea hA
  have happ := applyMove_score g fromArea fromIndex toArea toIndex cardCount sourceCards
      (jsSliceFrom sourceCards (-cardCount)) hfa
  obtain ⟨hr_score, hr_found, hr_start, hr_type⟩ := recordMove_inv _ _ hrec
  have hsp81 : (g81.gameType == some "spider") = false := by
    rw [hr_type, applyMove_gameType]
    exact hsp
  rw [checkWinCondition_klondike _ _ hsp81] at hwin
  simp only [Option.some.injEq] at hwin
  subst hwin
  rw [checkAutoComplete_score, checkAutoComplete_foundation]
  rw [apply_ite GameState.score, apply_ite GameState.foundation]
  rw [ite_self]
  split_ifs with hc
  all_goals rw [hr_score, happ]
  all_goals try rw [hr_start, applyMove_startTime]
  all_goals ring

/-- C5 (amended): a `moveCards` call onto an in-range foundation pile
succeeds exactly when the clamped move-set is a single card that
`canPlaceOnFoundation` accepts on the addressed pile and the
destination index is the index of the card's own suit
(`foundationMoveAllowed`); any such call violating the condition
returns `false` with the state untouched.  (`cardCount` itself is not
required to be 1 — see the counterexample — and an out-of-range
destination index faults instead of returning `false`.) -/
theorem c5_foundation_validation (g : GameState) (fromArea : String) (fromIndex : Int)
    (toIndex cardCount : Int) (now : Int)
    (hsp : (g.gameType == some "spider") = false)
    (sourceCards : List Card) (hsrc : g.getCardArray fromArea fromIndex = some sourceCards)
    (hne : sourceCards ≠ []) (targetPile : List Card)
    (hti : jsIndex g.foundation toIndex = some targetPile) :
    ∃ g', g.moveCards fromArea fromIndex "foundation" toIndex cardCount now =
        some (foundationMoveAllowed sourceCards targetPile toIndex cardCount, g') ∧
      (foundationMoveAllowed sourceCards targetPile toIndex cardCount = false → g' = g) := by
  have hgt : g.getCardArray "foundation" toIndex = some targetPile := by
    unfold GameState.getCardArray
    simp [hti]
  unfold GameState.moveCards
  rw [hsrc]
  dsimp only
  rw [if_neg (by simp [hne] : ¬ sourceCards.isEmpty = true)]
  rw [hgt]
  unfold GameState.isValidMove foundationMoveAllowed
  rcases hmv : jsSliceFrom sourceCards (-cardCount) with _ | ⟨movingCard, rest⟩
  · exact ⟨g, rfl, fun _ => rfl⟩
  rcases rest with _ | ⟨r2, rs⟩
  · -- single-card move-set
    try dsimp only
    rw [if_pos (by rfl : ("foundation" == "foundation") = true)]
    rw [if_neg (by simp : ¬ ([movingCard].length > 1))]
    by_cases hcp : movingCard.canPlaceOnFoundation targetPile = true
    · rw [hcp]
      try dsimp only
      by_cases hsuit : (jsIndex suitOrder toIndex == some movingCard.suit) = true
      · have hsuit2 : (some movingCard.suit != jsIndex suitOrder toIndex) = false := by
          simp only [bne_eq_false_iff_eq]
          simp only [beq_iff_eq] at hsuit
          rw [hsuit]
        rw [if_neg (by simp [hsuit2] : ¬ (some movingCard.suit != jsIndex suitOrder toIndex) = true)]
        try dsimp only
        have htype : ((g.applyMove fromArea fromIndex "foundation" toIndex cardCount sourceCards
            [movingCard]).gameType == some "spider") = false := by
          rw [applyMove_gameType]
          exact hsp
        rw [recordMove_eq _ htype]
        try dsimp only
        have htype2 : ((({ g.applyMove fromArea fromIndex "foundation" toIndex cardCount
            sourceCards [movingCard] with
            moveHistory := recordHist (g.applyMove fromArea fromIndex "foundation" toIndex
              cardCount sourceCards [movingCard]) } : GameState)).gameType
              == some "spider") = false := htype
        rw [checkWinCondition_klondike _ _ htype2]
        try dsimp only
        rw [hsuit, Bool.and_true]
        exact ⟨_, rfl, fun habs => absurd habs (by simp)⟩
      · have hsuit2 : (some movingCard.suit != jsIndex suitOrder toIndex) = true := by
          simp only [bne_iff_ne]
          intro hx
          rw [← hx] at hsuit
          simp at hsuit
        rw [if_pos hsuit2]
        rw [Bool.true_and]
        have hx : (jsIndex suitOrder toIndex == some movingCard.suit) = false := by
          simp only [Bool.eq_false_iff]
          intro hx2
          exact hsuit hx2
        rw [hx]
        exact ⟨g, rfl, fun _ => rfl⟩
    · have hcp2 : movingCard.canPlaceOnFoundation targetPile = false := by
        simp only [Bool.eq_false_iff]
        exact fun hx => hcp hx
      rw [hcp2, Bool.false_and]
      exact ⟨g, rfl, fun _ => rfl⟩
  · -- move-set of two or more cards
    try dsimp only
    rw [if_pos (by rfl : ("foundation" == "foundation") = true)]
    rw [if_pos (by simp : (movingCard :: r2 :: rs).length > 1)]
    exact ⟨g, rfl, fun _ => rfl⟩

theorem setCardArray_foundation (g : GameState) (a : String) (i : Int) (p : List Card) :
    (g.setCardArray a i p).foundation =
      if a == "foundation" then jsSet g.foundation i p else g.foundation := by
  unfold GameState.setCardArray
  split_ifs <;> simp_all

theorem jsIndex_mem {α : Type} (xs : List α) (i : Int) (v : α) (h : jsIndex xs i = some v) :
    v ∈ xs := by
  unfold jsIndex at h
  split_ifs at h
  exact List.get?_mem h

theorem applyMove_foundation₂ (g : GameState) (fa : String) (fi : Int) (ta : String) (ti : Int)
    (k : Int) (src mv : List Card) :
    (g.applyMove fa fi ta ti k src mv).foundation =
      ((g.setCardArray fa fi (jsSpliceKeep src (-k) k)).setCardArray ta ti
        ((((g.setCardArray fa fi (jsSpliceKeep src (-k) k)).getCardArray ta ti).getD []) ++ mv)).foundation := by
  unfold GameState.applyMove
  dsimp only
  rw [apply_ite GameState.foundation]
  dsimp only
  rw [ite_self]
  rw [show ∀ (x : GameState) (a b : String) (n : Int),
      (GameState.updateScore x a b n).foundation = x.foundation from fun _ _ _ _ => rfl]
  rw [flipSourceTop_foundation]

theorem applyMove_moveHistory (g : GameState) (fa : String) (fi : Int) (ta : String) (ti : Int)
    (k : Int) (src mv : List Card) :
    (g.applyMove fa fi ta ti k src mv).moveHistory = g.moveHistory := by
  unfold GameState.applyMove
  dsimp only
  rw [apply_ite GameState.moveHistory]
  dsimp only
  rw [ite_self]
  show (GameState.flipSourceTop _ _ _).moveHistory = _
  rw [flipSourceTop_moveHistory, setCardArray_moveHistory, setCardArray_moveHistory]

theorem isValidMove_foundation_inv (g : GameState) (cards : List Card) (fa : String)
    (targetCards : Option (List Card)) (ti : Int)
    (h : g.isValidMove cards fa "foundation" targetCards ti = some true) :
    ∃ c t, cards = [c] ∧ targetCards = some t ∧ c.canPlaceOnFoundation t = true := by
  unfold GameState.isValidMove at h
  cases cards with
  | nil => simp at h
  | cons c rest =>
    dsimp only at h
    rw [if_pos (by rfl : ("foundation" == "foundation") = true)] at h
    cases rest with
    | cons r rs =>
      rw [if_pos (by simp : (c :: r :: rs).length > 1)] at h
      simp at h
    | nil =>
      rw [if_neg (by simp : ¬ ([c].length > 1))] at h
      cases targetCards with
      | none => simp at h
      | some t =>
        dsimp only at h
        refine ⟨c, t, rfl, rfl, ?_⟩
        by_cases hcp : c.canPlaceOnFoundation t = true
        · exact hcp
        · rw [if_pos (by simp [hcp] : ((!c.canPlaceOnFoundation t) = true))] at h
          simp at h

theorem getCardArray_foundation_eq (g : GameState) (ti : Int) :
    g.getCardArray "foundation" ti = jsIndex g.foundation ti := by
  unfold GameState.getCardArray
  rfl

theorem canPlace_getLast_self (c : Card) (pile : List Card) (hl : pile.getLast? = some c) :
    c.canPlaceOnFoundation pile = false := by
  unfold Card.canPlaceOnFoundation
  rw [hl]
  simp only [Bool.and_eq_false_iff]
  right
  simp only [beq_eq_false_iff_ne, ne_eq]
  omega

theorem jsSpliceKeep_isTake (src : List Card) (k : Int) :
    ∃ m, jsSpliceKeep src (-k) k = src.take m :=
  ⟨src.length - min (max k 0).toNat src.length, jsSpliceKeep_neg src k⟩

theorem applyMove_foundationsOk (g : GameState) (fa : String) (fi : Int) (ta : String)
    (ti k : Int) (src : List Card)
    (hfo : ∀ pile ∈ g.foundation, foundationPileOkB pile = true)
    (hsrc : g.getCardArray fa fi = some src)
    (hval : g.isValidMove (jsSliceFrom src (-k)) fa ta (g.getCardArray ta ti) ti = some true) :
    ∀ pile ∈ (g.applyMove fa fi ta ti k src (jsSliceFrom src (-k))).foundation,
      foundationPileOkB pile = true := by
  intro pile hp
  rw [applyMove_foundation₂] at hp
  rw [setCardArray_foundation] at hp
  obtain ⟨m, hsplm⟩ := jsSpliceKeep_isTake src k
  -- the foundation list after the source splice
  have hg1 : (g.setCardArray fa fi (jsSpliceKeep src (-k) k)).foundation =
      (if (fa == "foundation") = true then jsSet g.foundation fi (src.take m) else g.foundation) := by
    rw [setCardArray_foundation, hsplm]
  -- every pile of the post-splice foundation list is still legal
  have hg1ok : ∀ q ∈ (g.setCardArray fa fi (jsSpliceKeep src (-k) k)).foundation,
      foundationPileOkB q = true := by
    intro q hq
    rw [hg1] at hq
    split_ifs at hq with hfa
    · rcases mem_jsSet _ _ _ _ hq with rfl | hq2
      · have hfa' : fa = "foundation" := by simpa using hfa
        subst hfa'
        have hsrc2 : jsIndex g.foundation fi = some src := by
          rw [← getCardArray_foundation_eq]
          exact hsrc
        exact foundationPileOkB_take src m (hfo src (jsIndex_mem _ _ _ hsrc2))
      · exact hfo q hq2
    · exact hfo q hq
  split_ifs at hp with hta
  · -- destination is a foundation pile
    have hta' : ta = "foundation" := by simpa using hta
    subst hta'
    obtain ⟨c, t, hc, ht, hcp⟩ := isValidMove_foundation_inv _ _ _ _ _ hval
    have hti : jsIndex g.foundation ti = some t := by
      rw [← getCardArray_foundation_eq]
      exact ht
    rw [hc] at hp
    rw [getCardArray_foundation_eq] at hp
    rcases mem_jsSet _ _ _ _ hp with rfl | hq2
    · -- the freshly pushed pile
      by_cases hfa : (fa == "foundation") = true
      · have hfa' : fa = "foundation" := by simpa using hfa
        subst hfa'
        have hsrc2 : jsIndex g.foundation fi = some src := by
          rw [← getCardArray_foundation_eq]
          exact hsrc
        by_cases hfi : fi = ti
        · -- source and target alias the same pile: validation cannot succeed
          subst hfi
          have hts : t = src := by
            rw [hti] at hsrc2
            exact (Option.some.injEq _ _ ▸ hsrc2).symm ▸ rfl
          exfalso
          have hlast : src.getLast? = some c := by
            apply drop_eq_single_getLast src (jsNormStart src.length (-k)) c
            simpa [jsSliceFrom] using hc
          rw [hts] at hcp
          rw [canPlace_getLast_self c src hlast] at hcp
          exact Bool.false_ne_true hcp
        · -- distinct foundation piles
          have hread : jsIndex (g.setCardArray "foundation" fi (jsSpliceKeep src (-k) k)).foundation ti
              = some t := by
            rw [setCardArray_foundation]
            rw [if_pos (by rfl : ("foundation" == "foundation") = true)]
            rw [jsIndex_jsSet_ne _ _ _ _ (by omega : ti ≠ fi)]
            exact hti
          rw [hread]
          exact foundationPileOkB_push t c (hfo t (jsIndex_mem _ _ _ hti)) hcp
      · -- source elsewhere: the target pile read back is unchanged
        have hread : jsIndex (g.setCardArray fa fi (jsSpliceKeep src (-k) k)).foundation ti
            = some t := by
          rw [setCardArray_foundation, if_neg (by simp [hfa])]
          exact hti
        rw [hread]
        exact foundationPileOkB_push t c (hfo t (jsIndex_mem _ _ _ hti)) hcp
    · exact hg1ok _ hq2
  · -- destination elsewhere: only the source splice touches the foundations
    exact hg1ok _ hp

theorem checkWinCondition_inv (g : GameState) (now : Int) (g' : GameState)
    (hsp : (g.gameType == some "spider") = false)
    (h : g.checkWinCondition now = some g') :
    g'.foundation = g.foundation ∧ g'.moveHistory = g.moveHistory ∧ g'.gameType = g.gameType := by
  rw [checkWinCondition_klondike _ _ hsp] at h
  simp only [Option.some.injEq] at h
  subst h
  rw [apply_ite GameState.foundation, apply_ite GameState.moveHistory, apply_ite GameState.gameType]
  dsimp only
  rw [ite_self, ite_self, ite_self]
  exact ⟨rfl, rfl, rfl⟩

theorem checkAutoComplete_moveHistory (g : GameState) :
    (g.checkAutoComplete).moveHistory = g.moveHistory := by
  rw [checkAutoComplete_eq]

theorem applyMove_stateInv (g : GameState) (fa : String) (fi : Int) (ta : String)
    (ti k : Int) (src : List Card) (hInv : g.StateInv)
    (hsrc : g.getCardArray fa fi = some src)
    (hval : g.isValidMove (jsSliceFrom src (-k)) fa ta (g.getCardArray ta ti) ti = some true) :
    (g.applyMove fa fi ta ti k src (jsSliceFrom src (-k))).StateInv := by
  obtain ⟨hgt, hfo, hhist⟩ := hInv
  refine ⟨?_, ?_, ?_⟩
  · rw [applyMove_gameType]
    exact hgt
  · exact applyMove_foundationsOk g fa fi ta ti k src hfo hsrc hval
  · rw [applyMove_moveHistory]
    exact hhist

theorem recordMove_stateInv (g g' : GameState) (hInv : g.StateInv)
    (h : g.recordMove = some g') : g'.StateInv := by
  obtain ⟨hgt, hfo, hhist⟩ := hInv
  rw [recordMove_eq _ (by simp [hgt])] at h
  simp only [Option.some.injEq] at h
  subst h
  refine ⟨hgt, hfo, ?_⟩
  intro snap hsnap
  rcases recordHist_mem _ _ hsnap with h2 | h2
  · exact hhist snap h2
  · subst h2
    exact ⟨hgt, by simpa [klondikeSnap, foundationsOk] using hfo⟩

theorem checkWin_stateInv (g : GameState) (now : Int) (g' : GameState) (hInv : g.StateInv)
    (h : g.checkWinCondition now = some g') : g'.StateInv := by
  obtain ⟨hgt, hfo, hhist⟩ := hInv
  obtain ⟨h1, h2, h3⟩ := checkWinCondition_inv g now g' (by simp [hgt]) h
  exact ⟨h3.trans hgt, h1 ▸ hfo, h2 ▸ hhist⟩

theorem checkAutoComplete_stateInv (g : GameState) (hInv : g.StateInv) :
    (g.checkAutoComplete).StateInv := by
  obtain ⟨hgt, hfo, hhist⟩ := hInv
  refine ⟨?_, ?_, ?_⟩
  · rw [checkAutoComplete_gameType]
    exact hgt
  · rw [checkAutoComplete_foundation]
    exact hfo
  · rw [checkAutoComplete_moveHistory]
    exact hhist

theorem moveCards_stateInv (g : GameState) (fa : String) (fi : Int) (ta : String) (ti : Int)
    (k : Int) (now : Int) (b : Bool) (g' : GameState) (hInv : g.StateInv)
    (h : g.moveCards fa fi ta ti k now = some (b, g')) : g'.StateInv := by
  unfold GameState.moveCards at h
  rcases hsrc : g.getCardArray fa fi with _ | sourceCards
  · rw [hsrc] at h
    simp only [Option.some.injEq, Prod.mk.injEq] at h
    rw [← h.2]
    exact hInv
  rw [hsrc] at h
  dsimp only at h
  by_cases hemp : sourceCards.isEmpty = true
  · rw [if_pos hemp] at h
    simp only [Option.some.injEq, Prod.mk.injEq] at h
    rw [← h.2]
    exact hInv
  rw [if_neg hemp] at h
  rcases hval : g.isValidMove (jsSliceFrom sourceCards (-k)) fa ta (g.getCardArray ta ti) ti
      with _ | bv
  · rw [hval] at h
    simp at h
  rw [hval] at h
  cases bv
  · simp only [Option.some.injEq, Prod.mk.injEq] at h
    rw [← h.2]
    exact hInv
  dsimp only at h
  rcases hrec : (g.applyMove fa fi ta ti k sourceCards (jsSliceFrom sourceCards (-k))).recordMove
      with _ | g81
  · rw [hrec] at h
    simp at h
  rw [hrec] at h
  dsimp only at h
  rcases hwin : g81.checkWinCondition now with _ | g8
  · rw [hwin] at h
    simp at h
  rw [hwin] at h
  dsimp only at h
  simp only [Option.some.injEq, Prod.mk.injEq] at h
  rw [← h.2]
  have i1 := applyMove_stateInv g fa fi ta ti k sourceCards hInv hsrc hval
  have i2 := recordMove_stateInv _ _ i1 hrec
  have i3 := checkWin_stateInv _ _ _ i2 hwin
  exact checkAutoComplete_stateInv _ i3

theorem drawFromStock_stateInv (g : GameState) (b : Bool) (g' : GameState) (hInv : g.StateInv)
    (h : g.drawFromStock = some (b, g')) : g'.StateInv := by
  obtain ⟨hgt, hfo, hhist⟩ := hInv
  unfold GameState.drawFromStock at h
  by_cases h1 : (g.stock.isEmpty && g.waste.isEmpty) = true
  · rw [if_pos h1] at h
    simp only [Option.some.injEq, Prod.mk.injEq] at h
    rw [← h.2]
    exact ⟨hgt, hfo, hhist⟩
  rw [if_neg h1] at h
  dsimp only at h
  by_cases h2 : g.stock.isEmpty = true
  · rw [if_pos h2] at h
    rw [recordMove_eq _ (by simp [hgt])] at h
    dsimp only at h
    rw [recordMove_eq _ (by simp [hgt])] at h
    dsimp only at h
    simp only [Option.some.injEq, Prod.mk.injEq] at h
    rw [← h.2]
    refine ⟨hgt, hfo, ?_⟩
    intro snap hsnap
    rcases recordHist_mem _ _ hsnap with h3 | h3
    · rcases recordHist_mem _ _ h3 with h4 | h4
      · exact hhist snap h4
      · subst h4
        exact ⟨hgt, by simpa [klondikeSnap, foundationsOk] using hfo⟩
    · subst h3
      exact ⟨hgt, by simpa [klondikeSnap, foundationsOk] using hfo⟩
  · rw [if_neg h2] at h
    dsimp only at h
    rw [recordMove_eq _ (by simp [hgt])] at h
    dsimp only at h
    simp only [Option.some.injEq, Prod.mk.injEq] at h
    rw [← h.2]
    refine ⟨hgt, hfo, ?_⟩
    intro snap hsnap
    rcases recordHist_mem _ _ hsnap with h3 | h3
    · exact hhist snap h3
    · subst h3
      exact ⟨hgt, by simpa [klondikeSnap, foundationsOk] using hfo⟩

theorem getLast?_mem_self {α : Type} (xs : List α) (v : α) (h : xs.getLast? = some v) :
    v ∈ xs := by
  obtain ⟨hne, rfl⟩ := List.mem_getLast?_eq_getLast (Option.mem_def.mpr h)
  exact List.getLast_mem hne

theorem undoLastMove_stateInv (g : GameState) (hInv : g.StateInv) :
    (g.undoLastMove).2.StateInv := by
  obtain ⟨hgt, hfo, hhist⟩ := hInv
  unfold GameState.undoLastMove
  rcases hlast : g.moveHistory.getLast? with _ | snap
  · exact ⟨hgt, hfo, hhist⟩
  obtain ⟨hsg, hsf⟩ := hhist snap (getLast?_mem_self _ _ hlast)
  dsimp only
  simp only [GameState.restoreSnapshot, checkAutoComplete_eq]
  rw [hsg]
  simp only [Option.none_orElse']
  split_ifs with hcond
  · exfalso
    rw [show (({ g with moveHistory := g.moveHistory.dropLast } : GameState)).gameType = g.gameType
      from rfl, hgt] at hcond
    simp at hcond
  · refine ⟨hgt, hsf, ?_⟩
    intro s hs
    exact hhist s (List.mem_of_mem_dropLast hs)

theorem autoTryColumn_stateInv (g : GameState) (col : Nat) (now : Int) (g' : GameState) (m : Bool)
    (hInv : g.StateInv) (h : g.autoTryColumn col now = some (g', m)) : g'.StateInv := by
  unfold GameState.autoTryColumn at h
  rcases h1 : jsIndex g.tableau (col : Int) with _ | column
  · rw [h1] at h
    simp only [Option.some.injEq, Prod.mk.injEq] at h
    rw [← h.1]
    exact hInv
  rw [h1] at h
  dsimp only at h
  rcases h2 : column.getLast? with _ | topCard
  · rw [h2] at h
    simp only [Option.some.injEq, Prod.mk.injEq] at h
    rw [← h.1]
    exact hInv
  rw [h2] at h
  dsimp only at h
  rcases h3 : (List.range 4).find?
      (fun i => topCard.canPlaceOnFoundation ((jsIndex g.foundation (i : Int)).getD []))
      with _ | fIdx
  · rw [h3] at h
    simp only [Option.some.injEq, Prod.mk.injEq] at h
    rw [← h.1]
    exact hInv
  rw [h3] at h
  dsimp only at h
  rcases h4 : g.moveCards "tableau" (col : Int) "foundation" (fIdx : Int) 1 now with _ | pr
  · rw [h4] at h
    simp at h
  rw [h4] at h
  dsimp only at h
  simp only [Option.some.injEq, Prod.mk.injEq] at h
  rw [← h.1]
  exact moveCards_stateInv g _ _ _ _ _ _ pr.1 pr.2 hInv (by rw [h4])

theorem autoTryWaste_stateInv (g : GameState) (now : Int) (g' : GameState) (m : Bool)
    (hInv : g.StateInv) (h : g.autoTryWaste now = some (g', m)) : g'.StateInv := by
  unfold GameState.autoTryWaste at h
  rcases h2 : g.waste.getLast? with _ | topCard
  · rw [h2] at h
    simp only [Option.some.injEq, Prod.mk.injEq] at h
    rw [← h.1]
    exact hInv
  rw [h2] at h
  dsimp only at h
  rcases h3 : (List.range 4).find?
      (fun i => topCard.canPlaceOnFoundation ((jsIndex g.foundation (i : Int)).getD []))
      with _ | fIdx
  · rw [h3] at h
    simp only [Option.some.injEq, Prod.mk.injEq] at h
    rw [← h.1]
    exact hInv
  rw [h3] at h
  dsimp only at h
  rcases h4 : g.moveCards "waste" 0 "foundation" (fIdx : Int) 1 now with _ | pr
  · rw [h4] at h
    simp at h
  rw [h4] at h
  dsimp only at h
  simp only [Option.some.injEq, Prod.mk.injEq] at h
  rw [← h.1]
  exact moveCards_stateInv g _ _ _ _ _ _ pr.1 pr.2 hInv (by rw [h4])

theorem autoPassCols_stateInv (now : Int) (cols : List Nat) :
    ∀ (g : GameState) (made : Bool) (g' : GameState) (m : Bool), g.StateInv →
      GameState.autoPassCols now cols g made = some (g', m) → g'.StateInv := by
  induction cols with
  | nil =>
    intro g made g' m hInv h
    simp only [GameState.autoPassCols, Option.some.injEq, Prod.mk.injEq] at h
    rw [← h.1]
    exact hInv
  | cons col rest ih =>
    intro g made g' m hInv h
    simp only [GameState.autoPassCols] at h
    rcases h1 : g.autoTryColumn col now with _ | pr
    · rw [h1] at h
      simp at h
    rw [h1] at h
    dsimp only at h
    exact ih pr.1 _ g' m (autoTryColumn_stateInv g col now pr.1 pr.2 hInv (by rw [h1])) h

theorem autoPass_stateInv (g : GameState) (now : Int) (g' : GameState) (m : Bool)
    (hInv : g.StateInv) (h : g.autoPass now = some (g', m)) : g'.StateInv := by
  unfold GameState.autoPass at h
  rcases h1 : GameState.autoPassCols now (List.range g.tableau.length) g false with _ | pr
  · rw [h1] at h
    simp at h
  rw [h1] at h
  dsimp only at h
  rcases h2 : pr.1.autoTryWaste now with _ | pr2
  · rw [h2] at h
    simp at h
  rw [h2] at h
  dsimp only at h
  simp only [Option.some.injEq, Prod.mk.injEq] at h
  rw [← h.1]
  have i1 := autoPassCols_stateInv now (List.range g.tableau.length) g false pr.1 pr.2 hInv
    (by rw [h1])
  exact autoTryWaste_stateInv pr.1 now pr2.1 pr2.2 i1 (by rw [h2])

theorem autoLoop_stateInv (now : Int) (fuel : Nat) :
    ∀ (g g' : GameState), g.StateInv → GameState.autoLoop now fuel g = some g' → g'.StateInv := by
  induction fuel with
  | zero =>
    intro g g' hInv h
    simp only [GameState.autoLoop, Option.some.injEq] at h
    rw [← h]
    exact hInv
  | succ n ih =>
    intro g g' hInv h
    simp only [GameState.autoLoop] at h
    rcases h1 : g.autoPass now with _ | pr
    · rw [h1] at h
      simp at h
    rw [h1] at h
    have i1 := autoPass_stateInv g now pr.1 pr.2 hInv (by rw [h1])
    rcases pr with ⟨g1, mb⟩
    cases mb
    · dsimp only at h
      simp only [Option.some.injEq] at h
      rw [← h]
      exact i1
    · dsimp only at h
      exact ih g1 g' i1 h

theorem autoComplete_stateInv (g : GameState) (now : Int) (fuel : Nat) (g' : GameState)
    (hInv : g.StateInv) (h : g.autoComplete now fuel = some g') : g'.StateInv := by
  unfold GameState.autoComplete at h
  split_ifs at h with h1
  · simp only [Option.some.injEq] at h
    rw [← h]
    exact hInv
  · exact autoLoop_stateInv now fuel g g' hInv h

theorem foundationsOk_empty4 : foundationsOk [[], [], [], []] := by
  intro pile hp
  simp only [List.mem_cons, List.not_mem_nil, or_false] at hp
  rcases hp with rfl | rfl | rfl | rfl <;> rfl

theorem newGame_stateInv (difficulty : String) (deal : Deal) (now : Int) (g : GameState)
    (hfo : foundationsOk deal.foundation)
    (h : GameState.newGame difficulty deal now = some g) : g.StateInv := by
  unfold GameState.newGame at h
  dsimp only at h
  rw [recordMove_eq _ (by rfl)] at h
  simp only [Option.some.injEq] at h
  rw [← h]
  refine ⟨rfl, ?_, ?_⟩
  · exact hfo
  · intro snap hsnap
    dsimp only at hsnap
    rcases recordHist_mem _ _ hsnap with h2 | h2
    · exact absurd h2 (by simp [GameState.checkAutoComplete, GameState.reset])
    · subst h2
      exact ⟨rfl, hfo⟩

theorem reach_stateInv (g : GameState) (h : Reach g) : g.StateInv := by
  induction h with
  | medium cards now g hperm heq => exact newGame_stateInv _ _ _ _ foundationsOk_empty4 heq
  | easy moves stockCards now g h15 h25 hcc hperm heq =>
    exact newGame_stateInv _ _ _ _ foundationsOk_empty4 heq
  | hard cards now g hperm heq => exact newGame_stateInv _ _ _ _ foundationsOk_empty4 heq
  | move g g' fa fi ta ti k now b hre heq ih => exact moveCards_stateInv g fa fi ta ti k now b g' ih heq
  | draw g g' b hre heq ih => exact drawFromStock_stateInv g b g' ih heq
  | undo g hre ih => exact undoLastMove_stateInv g ih
  | auto g g' now fuel hre heq ih => exact autoComplete_stateInv g now fuel g' ih heq


/-- C8: in every state reachable from a fresh Klondike deal by any
sequence of `moveCards`, `drawFromStock`, `undoLastMove` and
`autoComplete` calls, each foundation pile is empty or a contiguous
ascending run of a single suit starting at the Ace. -/
theorem c8_foundation_invariant (g : GameState) (h : Reach g) :
    ∀ pile ∈ g.foundation, foundationPileOkB pile = true :=
  (reach_stateInv g h).2.1

/-- Witness for C8: the first foundation pile of the fresh standard
deal `g0` satisfies the invariant. -/
theorem c8_foundation_invariant_witness :
    foundationPileOkB ([] : List Card) = true :=
  c8_foundation_invariant g0 (Reach.medium freshDeck 0 g0 (List.Perm.refl _) (by decide))
    [] (by decide)

/-- Witness for C2: an empty waste is rejected untouched, and an
oversized count is clamped to the whole pile. -/
theorem c2_empty_source_and_clamp_witness :
    GameState.reset.moveCards "waste" 0 "tableau" 0 1 0 = some (false, GameState.reset) ∧
    jsSliceFrom [(⟨13, "hearts", true⟩ : Card)] (-2) = [⟨13, "hearts", true⟩] :=
  ⟨c2_empty_source_and_clamp.1 GameState.reset "waste" 0 "tableau" 0 1 0 (Or.inr rfl),
   c2_empty_source_and_clamp.2 [⟨13, "hearts", true⟩] 2 (by decide)⟩

/-- Witness for C4 at the five-card waste state `c4State`. -/
theorem c4_recycle_then_draw_witness :
    ∃ g', c4State.drawFromStock = some (true, g') ∧
      g'.stockCycles = c4State.stockCycles + 1 ∧
      g'.stock.length =
        c4State.waste.length - (min c4State.drawCount (c4State.waste.length : Int)).toNat ∧
      g'.waste.length = (min c4State.drawCount (c4State.waste.length : Int)).toNat ∧
      (∀ c ∈ g'.stock, c.faceUp = false) ∧
      (∀ c ∈ g'.waste, c.faceUp = true) :=
  c4_recycle_then_draw c4State rfl rfl (by decide)

/-- Witness for C5 at the Ace-of-hearts state `c5State`. -/
theorem c5_foundation_validation_witness :
    ∃ g', c5State.moveCards "tableau" 0 "foundation" 0 1 0 =
        some (foundationMoveAllowed [⟨1, "hearts", true⟩] [] 0 1, g') ∧
      (foundationMoveAllowed [⟨1, "hearts", true⟩] [] 0 1 = false → g' = c5State) :=
  c5_foundation_validation c5State "tableau" 0 0 1 0 rfl [⟨1, "hearts", true⟩] rfl
    (by decide) [] rfl

/-- Witness for C6 at the concrete Ace-to-foundation move. -/
theorem c6_score_delta_witness :
    aceToFoundation.score = c5State.score + c6Base "tableau" "foundation" 1 +
      (if ((aceToFoundation.foundation.map List.length).sum : Int) == 52 then
        GameState.calculateTimeBonus c5State.startTime (some 3) else 0) :=
  c6_score_delta c5State "tableau" 0 "foundation" 0 1 3 aceToFoundation rfl (by decide)

/-- Witness for C9 at a concrete successful move, a concrete undo,
and a spider-typed state. -/
theorem c9_flag_recomputed_witness :
    (aceToFoundation.autoCompleteAvailable =
      (if aceToFoundation.gameType == some "spider" then false
       else aceToFoundation.autoAvailNow)) ∧
    ((c10State.undoLastMove).2.autoCompleteAvailable =
      (if (c10State.undoLastMove).2.gameType == some "spider" then false
       else (c10State.undoLastMove).2.autoAvailNow)) ∧
    (spiderState.checkAutoComplete).autoCompleteAvailable = false :=
  ⟨c9_flag_recomputed.1 c5State "tableau" 0 "foundation" 0 1 3 aceToFoundation (by decide),
   c9_flag_recomputed.2.1 c10State (c10State.undoLastMove).2 (by decide),
   c9_flag_recomputed.2.2 spiderState rfl⟩

/-- Witness for C10 at the one-snapshot state `c10State`. -/
theorem c10_undo_restores_snapshot_fields_witness :
    (c10State.undoLastMove).1 = true ∧
    (c10State.undoLastMove).2.tableau = c10Snap.tableau ∧
    (c10State.undoLastMove).2.stock = c10Snap.stock ∧
    (c10State.undoLastMove).2.foundation = c10Snap.foundation.getD [[], [], [], []] ∧
    (c10State.undoLastMove).2.waste = c10Snap.waste.getD [] ∧
    (c10State.undoLastMove).2.score = c10Snap.score ∧
    (c10State.undoLastMove).2.stockCycles = c10Snap.stockCycles ∧
    (c10State.undoLastMove).2.emptyColumnsCreated = c10Snap.emptyColumnsCreated ∧
    (c10State.undoLastMove).2.moves = c10State.moves + 1 ∧
    (c10State.undoLastMove).2.gameWon = c10State.gameWon ∧
    (c10State.undoLastMove).2.gameLost = c10State.gameLost ∧
    (c10State.undoLastMove).2.startTime = c10State.startTime ∧
    (c10State.undoLastMove).2.endTime = c10State.endTime ∧
    (c10State.undoLastMove).2.difficulty = c10State.difficulty ∧
    (c10State.undoLastMove).2.drawCount = c10State.drawCount :=
  c10_undo_restores_snapshot_fields c10State c10Snap rfl (by decide)

end Solitaire
